import Mathlib

/-!
Verification development for the GridTRX bookkeeping core (`src/models.py`).

The Python module stores its state in a SQLite database (tables `accounts`,
`transactions`, `lines`, `report_items`, `tax_codes`, `import_rules`, plus the
`meta` key/value table).  We embed that state shallowly as the structure `DB`
below, and each core function of `models.py` as a pure Lean function on `DB`.

Modelling conventions, justified against the source:
* All SQL `TEXT` columns are `String`; dates are the `TEXT` dates the source
  compares with `<=` (SQLite compares TEXT bytewise, Python compares `str`
  lexicographically; both agree with the `String` linear order used here).
* `INTEGER` amounts are `Int` (the source stores exact integer cents).
* A Python function that raises `ValueError` / `sqlite3.IntegrityError` is
  embedded as `Except LedgerError _`.  The `get_db` context manager commits on
  success and rolls back on any exception, so an error result leaves the
  stored state unchanged; the embedding returns the untouched `DB` to the
  caller in that case.
* `meta` is only consulted through `get_meta("lock_date", "")`; the `DB`
  carries that single value directly (`""` means unset, exactly the falsy
  default of the source).
* `generate_ref` draws 5 random characters; randomness is abstracted by the
  explicit `freshRef` argument of `add_transaction`.
* SQLite enforces `PRAGMA foreign_keys=ON`: inserting a `lines` row whose
  `account_id` (or `transaction_id`) does not exist raises
  `sqlite3.IntegrityError`, which is not a `ValueError` and therefore is not
  caught by callers that catch `ValueError` (such as `import_rows`).  This is
  the `ForeignKeyViolation` error below.
-/

namespace GridTRX

/-- Row of the `accounts` table. -/
structure Account where
  id : Nat
  name : String
  descr : String
  normal_balance : String
  account_type : String
  account_number : String
  notes : String
deriving DecidableEq, Repr

/-- Row of the `lines` table (the surrogate `lines.id` primary key is not
modelled; a line is identified by its transaction and `sort_order`). -/
structure Line where
  account_id : Nat
  amount : Int
  descr : String
  reconciled : Int
  doc_on_file : Int
  sort_order : Nat
deriving DecidableEq, Repr

/-- Row of the `transactions` table together with its `lines` rows (the
`ON DELETE CASCADE` of the schema makes the lines live and die with their
transaction).  The `created_at` timestamp column is not modelled. -/
structure Txn where
  id : Nat
  date : String
  reference : String
  descr : String
  lines : List Line
deriving DecidableEq, Repr

/-- Row of the `report_items` table. -/
structure ReportItem where
  id : Nat
  report_id : Nat
  position : Int
  item_type : String
  descr : String
  account_id : Option Nat
  indent : Nat
  total_to_1 : String
  total_to_2 : String
  total_to_3 : String
  total_to_4 : String
  total_to_5 : String
  total_to_6 : String
  sep_style : String
deriving DecidableEq, Repr

/-- Row of the `tax_codes` table.  `rate_percent` is a SQLite `REAL`; it is
modelled as an exact rational.  Every concrete rate handled in the claims
(5, 13, 15, 0, -5) and the concrete splits evaluated below are exact in
binary floating point, so the rational model agrees with the source there. -/
structure TaxCode where
  id : String
  descr : String
  rate_percent : ℚ
  collected_account : String
  paid_account : String
deriving DecidableEq, Repr

/-- Row of the `import_rules` table. -/
structure ImportRule where
  id : Nat
  keyword : String
  account_name : String
  tax_code : String
  priority : Int
  notes : String
deriving DecidableEq, Repr

/-- The whole persisted state of `models.py`: the five data tables, the two
lookup tables, and the single `meta` key the core reads (`lock_date`).
`next_txn_id` models the `AUTOINCREMENT` counter of `transactions`. -/
structure DB where
  accounts : List Account
  transactions : List Txn
  report_items : List ReportItem
  tax_codes : List TaxCode
  import_rules : List ImportRule
  lock_date : String
  next_txn_id : Nat
deriving DecidableEq, Repr

/-- Errors of the ledger store.  The first four correspond to the
`ValueError`s raised by `add_transaction` / `update_transaction` /
`delete_transaction` (unbalanced lines, fewer than 2 lines, posting to a
total account, lock-date violation); `ForeignKeyViolation` corresponds to a
`sqlite3.IntegrityError` from the `PRAGMA foreign_keys=ON` constraints. -/
inductive LedgerError where
  | Unbalanced
  | TooFewLines
  | PostingToTotalAccount
  | Locked
  | ForeignKeyViolation
deriving DecidableEq, Repr

/-- Python distinguishes `ValueError` (caught by `import_rows`) from
`sqlite3.IntegrityError` (not caught). -/
def LedgerError.isValueError : LedgerError → Bool
  | .ForeignKeyViolation => false
  | _ => true

/-- Lexicographic strict order on code points — exactly the `<` of Python
`str` and the `BINARY` collation SQLite applies to the `TEXT` dates
(identical on these ASCII strings).  Defined by structural recursion so
that concrete comparisons reduce inside the kernel. -/
def strLtL : List Char → List Char → Bool
  | _, [] => false
  | [], _ :: _ => true
  | a :: as, b :: bs => if a == b then strLtL as bs else Nat.blt a.toNat b.toNat

/-- String strict order (see `strLtL`). -/
def strLt (s t : String) : Bool := strLtL s.data t.data

/-- String order `s <= t`, as the Python and SQLite date comparisons use. -/
def strLe (s t : String) : Bool := !(strLt t s)

/-- Lowercasing, as Python `str.lower()` and SQLite `COLLATE NOCASE` use it
on the ASCII account names and rule keywords of this code base (non-ASCII
case folding is out of scope).  Defined over the character list so that it
reduces inside the kernel. -/
def strLower (s : String) : String := String.mk (s.data.map Char.toLower)

/-- Python `str.strip()` over the ASCII whitespace of this data.  (The
kernel-reducible counterpart of `String.trim`.) -/
def strTrim (s : String) : String :=
  String.mk (((s.data.dropWhile Char.isWhitespace).reverse.dropWhile
    Char.isWhitespace).reverse)

/-- Python slicing `s[:n]` (the kernel-reducible `String.take`). -/
def strTake (s : String) (n : Nat) : String := String.mk (s.data.take n)

/-- Split on a single-character separator, keeping empty pieces — the
behaviour of Python `str.split(sep)` and of `String.splitOn` for the
one-character separators used here. -/
def splitOnCharL (sep : Char) : List Char → List (List Char)
  | [] => [[]]
  | c :: cs =>
    if c == sep then [] :: splitOnCharL sep cs
    else
      match splitOnCharL sep cs with
      | [] => [[c]]
      | piece :: rest => (c :: piece) :: rest

/-- String view of `splitOnCharL`. -/
def splitOnChar (s : String) (sep : Char) : List String :=
  (splitOnCharL sep s.data).map String.mk

/-- Source: `get_account` — `SELECT * FROM accounts WHERE id=?`. -/
def findAccount (L : DB) (account_id : Nat) : Option Account :=
  L.accounts.find? (fun a => a.id == account_id)

/-- Source: `get_account_by_name` — `SELECT * FROM accounts WHERE name=?
COLLATE NOCASE` (case-insensitive match). -/
def get_account_by_name (L : DB) (name : String) : Option Account :=
  L.accounts.find? (fun a => strLower a.name == strLower name)

/-- Source: `get_meta(lock_date)` with empty-string default as used by all write paths. -/
def get_lock (L : DB) : String := L.lock_date

-- ─── Transactions & Lines ─────────────────────────────────────────

/-- Source: `add_transaction(date_str, reference, description, lines)`.
`lines` are the `(acct_id, amount, desc)` triples of the source.  Checks in
source order: balance, line count, blank-reference auto-assignment
(randomness abstracted by `freshRef`), total-account block, lock date, then
the inserts.  A line whose account id does not exist passes the
total-account loop (`if acct and ...`) and fails only at the SQL insert via
the foreign-key constraint; the surrounding transaction rolls back. -/
def add_transaction (L : DB) (freshRef : String)
    (date_str reference descr : String) (lines : List (Nat × Int × String)) :
    Except LedgerError (DB × Nat) :=
  let total : Int := (lines.map (fun l => l.2.1)).sum
  if total ≠ 0 then .error .Unbalanced
  else if lines.length < 2 then .error .TooFewLines
  else
    let ref := if strTrim reference = "" then freshRef else reference
    if lines.any (fun l =>
        match findAccount L l.1 with
        | some a => a.account_type == "total"
        | none => false) then .error .PostingToTotalAccount
    else if L.lock_date ≠ "" ∧ strLe date_str L.lock_date = true then .error .Locked
    else if lines.all (fun l => (findAccount L l.1).isSome) then
      let txn_id := L.next_txn_id
      let newLines := lines.enum.map (fun p =>
        Line.mk p.2.1 p.2.2.1 p.2.2.2 0 0 p.1)
      .ok ({ L with
              transactions := L.transactions ++
                [⟨txn_id, date_str, ref, descr, newLines⟩],
              next_txn_id := txn_id + 1 }, txn_id)
    else .error .ForeignKeyViolation

/-- Source: `add_simple_transaction` — a 2-line debit/credit posting. -/
def add_simple_transaction (L : DB) (freshRef : String)
    (date_str reference descr : String)
    (debit_acct_id credit_acct_id : Nat) (amount_cents : Int) :
    Except LedgerError (DB × Nat) :=
  add_transaction L freshRef date_str reference descr
    [(debit_acct_id, amount_cents, descr), (credit_acct_id, -amount_cents, descr)]

/-- Line argument of `update_transaction`: the source accepts
`(acct_id, amount, desc)` triples or 5-tuples carrying the `reconciled` and
`doc_on_file` flags (missing positions default to 0, as here). -/
structure ULine where
  account_id : Nat
  amount : Int
  descr : String
  reconciled : Int
  doc_on_file : Int
deriving DecidableEq, Repr

/-- Source: `update_transaction(txn_id, date_str, reference, description,
lines)`.  It validates only the balance and the lock date against the NEW
`date_str`; it does not re-check the line count or total accounts.  The SQL
then updates the transaction row (a no-op for an unknown id), deletes the
old lines and inserts the new ones; inserting a line for an unknown
transaction id or an unknown account id violates a foreign key and rolls the
whole write back (an empty new line set performs no insert, so an unknown id
with no lines commits as a no-op). -/
def update_transaction (L : DB) (txn_id : Nat)
    (date_str reference descr : String) (lines : List ULine) :
    Except LedgerError DB :=
  let total : Int := (lines.map (·.amount)).sum
  if total ≠ 0 then .error .Unbalanced
  else if L.lock_date ≠ "" ∧ strLe date_str L.lock_date = true then .error .Locked
  else if lines.isEmpty ||
      (L.transactions.any (fun t => t.id == txn_id) &&
       lines.all (fun ul => (findAccount L ul.account_id).isSome)) then
    .ok { L with
          transactions := L.transactions.map (fun t =>
            if t.id == txn_id then
              { t with
                date := date_str, reference := reference, descr := descr,
                lines := lines.enum.map (fun p =>
                  Line.mk p.2.account_id p.2.amount p.2.descr
                    p.2.reconciled p.2.doc_on_file p.1) }
            else t) }
  else .error .ForeignKeyViolation

/-- Source: `delete_transaction(txn_id)`.  When a lock date is set and the
stored transaction exists with `date <= lock`, raises; otherwise executes
`DELETE FROM transactions WHERE id=?`, which silently deletes zero rows when
the id is unknown. -/
def delete_transaction (L : DB) (txn_id : Nat) : Except LedgerError DB :=
  if L.lock_date ≠ "" then
    match L.transactions.find? (fun t => t.id == txn_id) with
    | some t =>
        if strLe t.date L.lock_date = true then .error .Locked
        else .ok { L with transactions := L.transactions.filter (fun t => t.id != txn_id) }
    | none => .ok { L with transactions := L.transactions.filter (fun t => t.id != txn_id) }
  else .ok { L with transactions := L.transactions.filter (fun t => t.id != txn_id) }

/-- Loop body of `bulk_delete_transactions`. -/
def bulk_delete_go (L : DB) : List Nat → Nat → Nat → DB × Nat × Nat
  | [], deleted, skipped => (L, deleted, skipped)
  | tid :: rest, deleted, skipped =>
    if L.lock_date ≠ "" then
      match L.transactions.find? (fun t => t.id == tid) with
      | some t =>
          if strLe t.date L.lock_date = true then
            bulk_delete_go L rest deleted (skipped + 1)
          else
            bulk_delete_go
              { L with transactions := L.transactions.filter (fun u => u.id != tid) }
              rest (deleted + 1) skipped
      | none =>
          bulk_delete_go
            { L with transactions := L.transactions.filter (fun u => u.id != tid) }
            rest (deleted + 1) skipped
    else
      bulk_delete_go
        { L with transactions := L.transactions.filter (fun u => u.id != tid) }
        rest (deleted + 1) skipped

/-- Source: `bulk_delete_transactions(txn_ids)` — per-id lock check; a
skipped id counts into `skipped`, every other id (including unknown ones,
whose `DELETE` affects zero rows) counts into `deleted`.  Returns the
mutated state together with `(deleted, skipped)`. -/
def bulk_delete_transactions (L : DB) (txn_ids : List Nat) : DB × Nat × Nat :=
  bulk_delete_go L txn_ids 0 0

-- ─── Balance Computation ──────────────────────────────────────────

/-- Date-range filter of the SQL queries: `AND t.date >= ?` / `AND t.date <=
?` are appended only when the bound is supplied (Python treats `None` and
`''` alike as absent; both are `none` here). -/
def dateOk (t : Txn) (date_from date_to : Option String) : Bool :=
  (match date_from with | some df => strLe df t.date | none => true) &&
  (match date_to with | some dt => strLe t.date dt | none => true)

/-- Source: `get_account_balance` — `SELECT COALESCE(SUM(l.amount),0) FROM
lines l JOIN transactions t ON l.transaction_id=t.id WHERE l.account_id=?`
with the optional date bounds: the raw (unflipped) sum of the line
amounts of the account in range. -/
def get_account_balance (L : DB) (account_id : Nat)
    (date_from date_to : Option String) : Int :=
  ((L.transactions.filter (fun t => dateOk t date_from date_to)).map (fun t =>
    ((t.lines.filter (fun l => l.account_id == account_id)).map (·.amount)).sum)).sum

/-- Source: `get_all_account_balances` — one `GROUP BY l.account_id` query.
The resulting dict is only ever read through `bulk_bal.get(id, 0)`, whose
value for every id (present or absent) is exactly the raw sum in range, so
the dict is modelled as that total function. -/
def get_all_account_balances (L : DB) (date_from date_to : Option String) :
    Nat → Int :=
  fun account_id => get_account_balance L account_id date_from date_to

-- ─── Ledger ───────────────────────────────────────────────────────

/-- One row of the `get_ledger` result (the dict built per line).  The
surrogate `lines.id` exposed as `line_id` is not modelled; `cross_accounts`
is the `GROUP_CONCAT(DISTINCT a2.name)` of the account names of the other lines. -/
structure LedgerEntry where
  txn_id : Nat
  date : String
  reference : String
  descr : String
  amount : Int
  raw_amount : Int
  cross_accounts : String
  running_balance : Int
  reconciled : Int
  doc_on_file : Int
  line_count : Nat
deriving DecidableEq, Repr

/-- Strict lexicographic order on `(t.date, t.id, l.sort_order)`, the
`ORDER BY` key of `get_ledger` (a strict key comparison makes the insertion
sort stable, matching a stable realisation of the SQL sort). -/
def ledgerRowLt (p q : Txn × Line) : Prop :=
  strLt p.1.date q.1.date = true ∨ (p.1.date = q.1.date ∧
    (p.1.id < q.1.id ∨ (p.1.id = q.1.id ∧ p.2.sort_order < q.2.sort_order)))

instance : DecidableRel ledgerRowLt := by
  unfold ledgerRowLt; exact fun p q => inferInstance

/-- Names of the other accounts of the transaction, deduplicated — the
`GROUP_CONCAT(DISTINCT a2.name)` column (the cross_accounts column, with NULL read as the empty string). -/
def crossAccounts (L : DB) (account_id : Nat) (t : Txn) : String :=
  String.intercalate ","
    (((t.lines.filter (fun l2 => l2.account_id != account_id)).filterMap
      (fun l2 => (findAccount L l2.account_id).map (·.name))).dedup)

/-- The running-balance loop of `get_ledger` (`balance += display_amount`). -/
def ledger_go (L : DB) (account_id : Nat) (sign : Int) :
    List (Txn × Line) → Int → List LedgerEntry
  | [], _ => []
  | (t, l) :: rest, balance =>
    let display_amount := l.amount * sign
    let balance := balance + display_amount
    { txn_id := t.id, date := t.date, reference := t.reference,
      descr := if l.descr ≠ "" then l.descr else t.descr,
      amount := display_amount, raw_amount := l.amount,
      cross_accounts := crossAccounts L account_id t,
      running_balance := balance, reconciled := l.reconciled,
      doc_on_file := l.doc_on_file,
      line_count := t.lines.length } :: ledger_go L account_id sign rest balance

/-- Source: `get_ledger(account_id, date_from, date_to)` — the account's
lines in range, ordered by `(t.date, t.id, l.sort_order)`, each with the
display amount `raw × sign(normal_balance)` and a running balance in that
sign.  The source dereferences `get_account(account_id)` unconditionally and
raises `TypeError` for an unknown account; that failure is `none` here. -/
def get_ledger (L : DB) (account_id : Nat) (date_from date_to : Option String) :
    Option (List LedgerEntry) :=
  match findAccount L account_id with
  | none => none
  | some acct =>
    let sign : Int := if acct.normal_balance == "D" then 1 else -1
    let rows := (L.transactions.filter (fun t => dateOk t date_from date_to)).flatMap
      (fun t => (t.lines.filter (fun l => l.account_id == account_id)).map (fun l => (t, l)))
    some (ledger_go L account_id sign (rows.insertionSort ledgerRowLt) 0)

-- ─── Trial Balance ────────────────────────────────────────────────

/-- One row of the `get_trial_balance` result. -/
structure TBRow where
  id : Nat
  name : String
  descr : String
  normal_balance : String
  account_number : String
  balance : Int
  debit : Int
  credit : Int
deriving DecidableEq, Repr

/-- Strict name order for `ORDER BY name` (names are `UNIQUE`). -/
def acctNameLt (a b : Account) : Prop := strLt a.name b.name = true

instance : DecidableRel acctNameLt := by
  unfold acctNameLt; exact fun a b => inferInstance

/-- The per-account debit/credit split of `get_trial_balance`. -/
def tbRow (L : DB) (as_of_date : Option String) (acct : Account) : Option TBRow :=
  let raw := get_account_balance L acct.id none as_of_date
  if raw = 0 then none
  else
    let sign : Int := if acct.normal_balance == "D" then 1 else -1
    let bal := raw * sign
    let dr : Int :=
      if bal > 0 ∧ acct.normal_balance = "D" then bal
      else if bal < 0 ∧ acct.normal_balance = "C" then |bal| else 0
    let cr : Int :=
      if bal > 0 ∧ acct.normal_balance = "C" then bal
      else if bal < 0 ∧ acct.normal_balance = "D" then |bal| else 0
    some ⟨acct.id, acct.name, acct.descr, acct.normal_balance,
          acct.account_number, bal, dr, cr⟩

/-- Source: `get_trial_balance(as_of_date)` — every posting account with a
non-zero raw balance as of the date, split into debit or credit columns,
with the two running totals accumulated over the emitted rows. -/
def get_trial_balance (L : DB) (as_of_date : Option String) :
    List TBRow × Int × Int :=
  let accounts :=
    (L.accounts.filter (fun a => a.account_type == "posting")).insertionSort acctNameLt
  let result := accounts.filterMap (tbRow L as_of_date)
  (result, (result.map (·.debit)).sum, (result.map (·.credit)).sum)

-- ─── Report Items & Aggregation Engine ───────────────────────────

/-- One row of `get_report_items` / `get_all_report_items`: the
`report_items` columns (`SELECT ri.*`) joined via `LEFT JOIN accounts` with
the account columns aliased `acct_name`, `acct_desc`, `normal_balance`,
`account_type`, `account_number`.  A SQL `NULL` from the outer join is the
empty string, matching the falsiness tests the source applies to these
fields (`if not name`, `or 'D'`, ...). -/
structure ItemView where
  id : Nat
  report_id : Nat
  position : Int
  item_type : String
  descr : String
  account_id : Option Nat
  indent : Nat
  total_to_1 : String
  total_to_2 : String
  total_to_3 : String
  total_to_4 : String
  total_to_5 : String
  total_to_6 : String
  sep_style : String
  acct_name : String
  acct_desc : String
  normal_balance : String
  account_type : String
  account_number : String
deriving DecidableEq, Repr

/-- The `LEFT JOIN accounts a ON ri.account_id = a.id` of the item queries. -/
def toView (L : DB) (ri : ReportItem) : ItemView :=
  match ri.account_id.bind (findAccount L) with
  | some a =>
    ⟨ri.id, ri.report_id, ri.position, ri.item_type, ri.descr, ri.account_id,
     ri.indent, ri.total_to_1, ri.total_to_2, ri.total_to_3, ri.total_to_4,
     ri.total_to_5, ri.total_to_6, ri.sep_style,
     a.name, a.descr, a.normal_balance, a.account_type, a.account_number⟩
  | none =>
    ⟨ri.id, ri.report_id, ri.position, ri.item_type, ri.descr, ri.account_id,
     ri.indent, ri.total_to_1, ri.total_to_2, ri.total_to_3, ri.total_to_4,
     ri.total_to_5, ri.total_to_6, ri.sep_style, "", "", "", "", ""⟩

/-- Strict order on `position` for `ORDER BY ri.position`. -/
def posLt (a b : ReportItem) : Prop := a.position < b.position

instance : DecidableRel posLt := by
  unfold posLt; exact fun a b => inferInstance

/-- Strict order on `(report_id, position)` for `ORDER BY ri.report_id,
ri.position`. -/
def reportPosLt (a b : ReportItem) : Prop :=
  a.report_id < b.report_id ∨ (a.report_id = b.report_id ∧ a.position < b.position)

instance : DecidableRel reportPosLt := by
  unfold reportPosLt; exact fun a b => inferInstance

/-- Source: `get_report_items(report_id)` — the report's items in position
order, joined with their accounts. -/
def get_report_items (L : DB) (report_id : Nat) : List ItemView :=
  (((L.report_items.filter (fun ri => ri.report_id == report_id)).insertionSort
    posLt).map (toView L))

/-- Source: `get_all_report_items()` — every item of every report, ordered
by `(report_id, position)`, joined with accounts. -/
def get_all_report_items (L : DB) : List ItemView :=
  ((L.report_items.insertionSort reportPosLt).map (toView L))

/-- Association list standing for a Python `dict` keyed by strings.  Keys
are kept unique (first-insertion order); all reads in the source go through
`get`/`[]`, all writes through key assignment, so lookup/update below are a
faithful model and the extensional `dict ==` test is `simapEqv`. -/
abbrev SIMap := List (String × Int)

/-- Lookup: `m[k]` / `m.get(k)`. -/
def simapFind (m : SIMap) (k : String) : Option Int :=
  (m.find? (fun kv => kv.1 == k)).map (·.2)

/-- Lookup with default: `m.get(k, 0)`. -/
def simapGetD (m : SIMap) (k : String) : Int := (simapFind m k).getD 0

/-- Assignment `m[k] = v` (replace if present, append otherwise). -/
def simapSet (m : SIMap) (k : String) (v : Int) : SIMap :=
  if m.any (fun kv => kv.1 == k) then
    m.map (fun kv => if kv.1 == k then (kv.1, v) else kv)
  else m ++ [(k, v)]

/-- The idiom `m[k] = m.get(k, 0) + v`. -/
def simapAdd (m : SIMap) (k : String) (v : Int) : SIMap :=
  simapSet m k (simapGetD m k + v)

/-- Extensional equality of two dicts (`accumulated == prev`): same keys,
same values. -/
def simapEqv (m1 m2 : SIMap) : Bool :=
  m1.all (fun kv => simapFind m2 kv.1 == some kv.2) &&
  m2.all (fun kv => simapFind m1 kv.1 == some kv.2)

/-- The five wired total-to slots (`tt_fields`); `total_to_6` is absent. -/
def ttFields (it : ItemView) : List String :=
  [it.total_to_1, it.total_to_2, it.total_to_3, it.total_to_4, it.total_to_5]

/-- Step 1 of `compute_report_column`: raw balances of every distinct
posting-account name referenced by any item, first occurrence wins (the
`seen` set). -/
def step1_raw_bal (bulk_bal : Nat → Int) :
    List ItemView → List String → SIMap → SIMap
  | [], _, acc => acc
  | it :: rest, seen, acc =>
    if it.account_id.isSome && it.account_type == "posting" &&
        !(seen.contains it.acct_name) then
      step1_raw_bal bulk_bal rest (it.acct_name :: seen)
        (acc ++ [(it.acct_name, ((it.account_id.map bulk_bal).getD 0))])
    else step1_raw_bal bulk_bal rest seen acc

/-- Per-name set of total-to targets (`acct_tt`); target lists are kept
duplicate-free, mirroring the Python `set`. -/
def ttInsert (m : List (String × List String)) (k target : String) :
    List (String × List String) :=
  m.map (fun kv =>
    if kv.1 == k then
      (kv.1, if kv.2.contains target then kv.2 else kv.2 ++ [target])
    else kv)

/-- Step 2 of `compute_report_column`: scan every item of every report,
merging the (deduplicated) targets of the first five total-to slots of all
occurrences of each account name. -/
def step2_acct_tt :
    List ItemView → List (String × List String) → List (String × List String)
  | [], acc => acc
  | it :: rest, acc =>
    if it.acct_name == "" then step2_acct_tt rest acc
    else
      let acc := if acc.any (fun kv => kv.1 == it.acct_name) then acc
                 else acc ++ [(it.acct_name, [])]
      let acc := (ttFields it).foldl (fun acc target =>
        if target ≠ "" then ttInsert acc it.acct_name target else acc) acc
      step2_acct_tt rest acc

/-- One pass of the fixed-point accumulation (step 3): every name with
outgoing edges contributes `raw + previously-accumulated` into each of its
targets. -/
def onePass (acct_tt : List (String × List String)) (raw_bal prev : SIMap) :
    SIMap :=
  acct_tt.foldl (fun acc kv =>
    if kv.2.isEmpty then acc
    else
      let val := simapGetD raw_bal kv.1 + simapGetD prev kv.1
      kv.2.foldl (fun acc target => simapAdd acc target val) acc) []

/-- The `for _pass in range(10)` loop with its early `break` once the map
stops changing. -/
def passLoop (acct_tt : List (String × List String)) (raw_bal : SIMap) :
    Nat → SIMap → SIMap
  | 0, acc => acc
  | fuel + 1, prev =>
    let acc := onePass acct_tt raw_bal prev
    if simapEqv acc prev then acc else passLoop acct_tt raw_bal fuel acc

/-- The last-assignment-wins `nb_map[name] = normal_balance` build. -/
def buildNbMap : List ItemView → List (String × String) → List (String × String)
  | [], acc => acc
  | it :: rest, acc =>
    if it.acct_name ≠ "" ∧ it.normal_balance ≠ "" then
      buildNbMap rest
        (if acc.any (fun kv => kv.1 == it.acct_name) then
          acc.map (fun kv =>
            if kv.1 == it.acct_name then (kv.1, it.normal_balance) else kv)
         else acc ++ [(it.acct_name, it.normal_balance)])
    else buildNbMap rest acc

/-- Source: `compute_report_column(report_id, date_from, date_to,
_display_items, _all_items)`.  The optional prefetched lists follow the
Python `or` (an empty override list also falls back to the queries).  Steps
1-5 as in the source; the result pairs each display item row with its
sign-adjusted value. -/
def compute_report_column (L : DB) (report_id : Nat)
    (date_from date_to : Option String)
    (odisp oall : Option (List ItemView)) : List (ItemView × Int) :=
  let display_items :=
    match odisp with
    | some l => if l.isEmpty then get_report_items L report_id else l
    | none => get_report_items L report_id
  let all_items :=
    match oall with
    | some l => if l.isEmpty then get_all_report_items L else l
    | none => get_all_report_items L
  let bulk_bal := get_all_account_balances L date_from date_to
  let raw_bal := step1_raw_bal bulk_bal all_items [] []
  let acct_tt := step2_acct_tt all_items []
  let accumulated := passLoop acct_tt raw_bal 10 []
  let all_names := ((raw_bal.map (·.1)) ++ (accumulated.map (·.1))).dedup
  let merged := all_names.map (fun n =>
    (n, simapGetD raw_bal n + simapGetD accumulated n))
  let nb_map := buildNbMap all_items []
  display_items.map (fun it =>
    let name := it.acct_name
    let raw := if name ≠ "" then simapGetD merged name else 0
    let nb := ((nb_map.find? (fun kv => kv.1 == name)).map (·.2)).getD
      (if it.normal_balance ≠ "" then it.normal_balance else "D")
    let sign : Int := if nb == "D" then 1 else -1
    (it, raw * sign))

-- ─── Tax Codes & Import Rules ─────────────────────────────────────

/-- Source: `get_tax_code(code_id)` — lookup by the `TEXT PRIMARY KEY`. -/
def get_tax_code (L : DB) (code_id : String) : Option TaxCode :=
  L.tax_codes.find? (fun tc => tc.id == code_id)

/-- Strict order for `ORDER BY priority DESC, keyword` of
`get_import_rules`. -/
def ruleLt (a b : ImportRule) : Prop :=
  b.priority < a.priority ∨
    (a.priority = b.priority ∧ strLt a.keyword b.keyword = true)

instance : DecidableRel ruleLt := by
  unfold ruleLt; exact fun a b => inferInstance

/-- Source: `get_import_rules()` — all rules, highest priority first,
keyword order inside equal priorities. -/
def get_import_rules (L : DB) : List ImportRule :=
  L.import_rules.insertionSort ruleLt

/-- The round builtin of Python: round half to even (bankers rounding).
The source feeds it `abs(amount) * rate / (100 + rate)` computed in floating
point; here the same expression is computed in ℚ.  All concrete splits
evaluated in this development are exact in both arithmetics. -/
def pyRound (q : ℚ) : ℤ :=
  let f := ⌊q⌋
  let r := q - f
  if r < 1 / 2 then f
  else if r > 1 / 2 then f + 1
  else if f % 2 = 0 then f else f + 1

/-- The net / tax / tax_acct dict returned by
`apply_rules` for a tax-inclusive split. -/
structure TaxInfo where
  net : Int
  tax : Int
  tax_acct : String
deriving DecidableEq, Repr

/-- Source: `apply_rules(description, amount_cents)`.  Scans the
priority-sorted rules for the first whose keyword is a case-insensitive
substring of the description; no match routes to `EX.SUSP`.  When the
matched rule carries a tax code whose rate is positive, the amount is
treated as tax-inclusive and split; money in uses the collected account
(default `GST.OUT`), money out the paid account (default `GST.IN`). -/
def apply_rules (L : DB) (description : String) (amount_cents : Int) :
    String × String × Option TaxInfo :=
  let rules := get_import_rules L
  let desc_lower := strLower description
  match rules.find? (fun r => decide ((strLower r.keyword).data <:+: desc_lower.data)) with
  | none => ("EX.SUSP", "", none)
  | some matched_rule =>
    let acct_name := matched_rule.account_name
    let tax_id := matched_rule.tax_code
    if tax_id ≠ "" then
      match get_tax_code L tax_id with
      | some tc =>
        if tc.rate_percent > 0 then
          let rate := tc.rate_percent
          let tax_cents : Int := pyRound ((|amount_cents| : ℚ) * rate / (100 + rate))
          let net_cents : Int := |amount_cents| - tax_cents
          let tax_acct :=
            if amount_cents > 0 then
              (if tc.collected_account ≠ "" then tc.collected_account else "GST.OUT")
            else
              (if tc.paid_account ≠ "" then tc.paid_account else "GST.IN")
          (acct_name, tax_id, some ⟨net_cents, tax_cents, tax_acct⟩)
        else (acct_name, tax_id, none)
      | none => (acct_name, tax_id, none)
    else (acct_name, tax_id, none)

-- ─── Date Normalisation ───────────────────────────────────────────

/-- Digit run of bounded length parsed as a number.  The `strptime` regexes
require exactly 4 digits for `%Y`, exactly 2 for `%y`, and 1-2 digits for
`%m`/`%d` (value ranges checked separately). -/
def parseNum (minLen maxLen : Nat) (s : String) : Option Nat :=
  let cs := s.data
  if minLen ≤ cs.length ∧ cs.length ≤ maxLen ∧ cs.all Char.isDigit then
    some (cs.foldl (fun n c => n * 10 + (c.toNat - 48)) 0)
  else none

/-- Gregorian leap-year rule used by `datetime` for day validation. -/
def isLeap (y : Nat) : Bool := y % 4 == 0 && (y % 100 != 0 || y % 400 == 0)

/-- Days per month, as validated by `datetime.strptime`. -/
def daysInMonth (y m : Nat) : Nat :=
  if m = 2 then (if isLeap y then 29 else 28)
  else if m = 4 ∨ m = 6 ∨ m = 9 ∨ m = 11 then 30
  else 31

/-- The range checks `datetime` performs (`MINYEAR = 1`, `MAXYEAR = 9999`,
day valid for the month). -/
def validYMD (y m d : Nat) : Bool :=
  1 ≤ y && y ≤ 9999 && 1 ≤ m && m ≤ 12 && 1 ≤ d && d ≤ daysInMonth y m

/-- Zero-padded 2-digit field of `strftime(%Y-%m-%d)`. -/
def pad2 (n : Nat) : String := if n < 10 then "0" ++ toString n else toString n

/-- Rendering of a parsed date in `%Y-%m-%d` (glibc does not zero-pad the
year; every date reachable here has a 1-4 digit year). -/
def renderYMD (y m d : Nat) : String :=
  toString y ++ "-" ++ pad2 m ++ "-" ++ pad2 d

/-- One numeric `strptime` format: three fields split by a literal
separator, in one of the orders year-month-day, month-day-year,
day-month-year; `y2` selects the two-digit year rule (00-68 → 2000s,
69-99 → 1900s). -/
def tryNumeric (sep : Char) (ord : Nat) (y2 : Bool) (s : String) :
    Option (Nat × Nat × Nat) :=
  match splitOnChar s sep with
  | [a, b, c] =>
    let yearOf := fun (t : String) =>
      if y2 then
        (parseNum 2 2 t).map (fun yy => if yy ≤ 68 then 2000 + yy else 1900 + yy)
      else parseNum 4 4 t
    let ymd? : Option (Nat × Nat × Nat) :=
      if ord = 0 then
        (yearOf a).bind (fun y => (parseNum 1 2 b).bind (fun m =>
          (parseNum 1 2 c).map (fun d => (y, m, d))))
      else if ord = 1 then
        (parseNum 1 2 a).bind (fun m => (parseNum 1 2 b).bind (fun d =>
          (yearOf c).map (fun y => (y, m, d))))
      else
        (parseNum 1 2 a).bind (fun d => (parseNum 1 2 b).bind (fun m =>
          (yearOf c).map (fun y => (y, m, d))))
    ymd?.bind (fun ymd =>
      if validYMD ymd.1 ymd.2.1 ymd.2.2 then some ymd else none)
  | _ => none

/-- Month-name tables for `%b` and `%B` (matched case-insensitively, as
`strptime` does). -/
def monthNames (full : Bool) : List String :=
  if full then
    ["january", "february", "march", "april", "may", "june", "july",
     "august", "september", "october", "november", "december"]
  else
    ["jan", "feb", "mar", "apr", "may", "jun", "jul", "aug", "sep", "oct",
     "nov", "dec"]

/-- The `%b %d, %Y` / `%B %d, %Y` formats: month name, day with a
trailing comma, year, separated by single spaces. -/
def tryMonthName (full : Bool) (s : String) : Option (Nat × Nat × Nat) :=
  match splitOnChar s ' ' with
  | [mon, dayc, yr] =>
    ((monthNames full).findIdx? (fun nm => nm == strLower mon)).bind (fun idx =>
      if dayc.data.getLast? == some ',' then
        (parseNum 1 2 (String.mk dayc.data.dropLast)).bind (fun d =>
          (parseNum 4 4 yr).bind (fun y =>
            if validYMD y (idx + 1) d then some (y, idx + 1, d) else none))
      else none)
  | _ => none

/-- The `strptime` fallback chain of `normalize_date`, in source order:
`%Y-%m-%d`, `%m/%d/%Y`, `%d/%m/%Y`, `%Y/%m/%d`, `%m-%d-%Y`, `%d-%m-%Y`,
`%b %d, %Y`, `%B %d, %Y`, `%m/%d/%y`, `%d/%m/%y`. -/
def tryFormats (s : String) : Option String :=
  (([tryNumeric '-' 0 false, tryNumeric '/' 1 false, tryNumeric '/' 2 false,
    tryNumeric '/' 0 false, tryNumeric '-' 1 false, tryNumeric '-' 2 false,
    tryMonthName false, tryMonthName true,
    tryNumeric '/' 1 true, tryNumeric '/' 2 true] :
      List (String → Option (Nat × Nat × Nat))).findSome? (fun f => f s)).map
    (fun ymd => renderYMD ymd.1 ymd.2.1 ymd.2.2)

/-- Source: `normalize_date(s)` — strip; empty → `None`; a 10-character
string with dashes at positions 4 and 7 is returned unvalidated; 8+ leading
digits are treated as OFX `YYYYMMDD[HHMMSS]` and re-punctuated unvalidated;
otherwise the `strptime` format chain runs.  (`str.isdigit` is modelled for
ASCII digits; the flexible run-of-whitespace matching of `strptime` is not
modelled — all separators are the literal single characters of the
formats.) -/
def normalize_date (s : String) : Option String :=
  let s := strTrim s
  if s = "" then none
  else if s.length = 10 ∧ s.data.get? 4 = some '-' ∧ s.data.get? 7 = some '-' then
    some s
  else if 8 ≤ s.length ∧ (s.data.take 8).all Char.isDigit then
    some (String.mk (s.data.take 4) ++ "-" ++ String.mk ((s.data.drop 4).take 2)
      ++ "-" ++ String.mk ((s.data.drop 6).take 2))
  else tryFormats s

-- ─── Batch Import ─────────────────────────────────────────────────

/-- One normalised input row of `import_rows` (`reference` defaults to the
empty string, matching the reference lookup with empty-string default). -/
structure ImportRow where
  date : String
  descr : String
  amount_cents : Int
  reference : String
deriving DecidableEq, Repr

/-- One row / reason entry of the error list. -/
structure ImpError where
  row : Nat
  reason : String
deriving DecidableEq, Repr

/-- The summary dict returned by `import_rows` (`errors` is the capped list;
the source omits the key entirely when no error occurred, which is the empty
list here). -/
structure ImportResult where
  rows_processed : Nat
  posted : Nat
  skipped : Nat
  to_suspense : Nat
  errors : List ImpError
deriving DecidableEq, Repr

/-- Fixed rendering of `str(e)` for a caught `ValueError` (the source
message interpolates amounts and dates; only the constant part is kept). -/
def LedgerError.message : LedgerError → String
  | .Unbalanced => "Transaction does not balance"
  | .TooFewLines => "Transaction must have at least 2 lines"
  | .PostingToTotalAccount => "Cannot post to a total account"
  | .Locked => "On or before the lock date"
  | .ForeignKeyViolation => "FOREIGN KEY constraint failed"

/-- The per-row loop of `import_rows`.  Caught `ValueError`s skip the row;
a `sqlite3.IntegrityError` (`ForeignKeyViolation`) is not caught by the
`except ValueError` clause and aborts the batch, as in the source. -/
def import_go (freshRef : String) (bank_account_id : Nat) :
    List ImportRow → DB → Nat → Nat → Nat → Nat → List ImpError →
    Except LedgerError (DB × Nat × Nat × Nat × List ImpError)
  | [], L, _, posted, skipped, suspense, errors =>
    .ok (L, posted, skipped, suspense, errors)
  | row :: rest, L, row_num, posted, skipped, suspense, errors =>
    let row_desc := row.descr
    let amount_cents := row.amount_cents
    let reference := row.reference
    if row_desc = "" then
      import_go freshRef bank_account_id rest L (row_num + 1) posted
        (skipped + 1) suspense (errors ++ [⟨row_num, "Missing description"⟩])
    else
      match normalize_date row.date with
      | none =>
        import_go freshRef bank_account_id rest L (row_num + 1) posted
          (skipped + 1) suspense (errors ++ [⟨row_num, "Bad date " ++ row.date⟩])
      | some row_date =>
        if L.lock_date ≠ "" ∧ strLe row_date L.lock_date = true then
          import_go freshRef bank_account_id rest L (row_num + 1) posted
            (skipped + 1) suspense
            (errors ++ [⟨row_num, "Before lock date " ++ L.lock_date⟩])
        else if amount_cents = 0 then
          import_go freshRef bank_account_id rest L (row_num + 1) posted
            (skipped + 1) suspense (errors ++ [⟨row_num, "Zero amount"⟩])
        else
          match apply_rules L row_desc amount_cents with
          | (matched_acct, tax_code, tax_info) =>
            match get_account_by_name L matched_acct with
            | none =>
              import_go freshRef bank_account_id rest L (row_num + 1) posted
                (skipped + 1) suspense
                (errors ++ [⟨row_num, "Account " ++ matched_acct ++ " not found"⟩])
            | some target_acct =>
              let suspense :=
                if matched_acct = "EX.SUSP" then suspense + 1 else suspense
              let postResult : Except LedgerError (DB × Nat) :=
                match tax_info with
                | some ti =>
                  if ti.tax ≠ 0 then
                    match get_account_by_name L ti.tax_acct with
                    | none =>
                      add_simple_transaction L freshRef row_date reference row_desc
                        (if amount_cents < 0 then target_acct.id else bank_account_id)
                        (if amount_cents < 0 then bank_account_id else target_acct.id)
                        |amount_cents|
                    | some tax_acct =>
                      let txn_lines :=
                        if amount_cents < 0 then
                          [(target_acct.id, ti.net, row_desc),
                           (tax_acct.id, ti.tax,
                             tax_code ++ " on " ++ strTake row_desc 30),
                           (bank_account_id, -(ti.net + ti.tax), row_desc)]
                        else
                          [(bank_account_id, ti.net + ti.tax, row_desc),
                           (target_acct.id, -ti.net, row_desc),
                           (tax_acct.id, -ti.tax,
                             tax_code ++ " on " ++ strTake row_desc 30)]
                      add_transaction L freshRef row_date reference row_desc txn_lines
                  else
                    add_simple_transaction L freshRef row_date reference row_desc
                      (if amount_cents < 0 then target_acct.id else bank_account_id)
                      (if amount_cents < 0 then bank_account_id else target_acct.id)
                      |amount_cents|
                | none =>
                  add_simple_transaction L freshRef row_date reference row_desc
                    (if amount_cents < 0 then target_acct.id else bank_account_id)
                    (if amount_cents < 0 then bank_account_id else target_acct.id)
                    |amount_cents|
              match postResult with
              | .ok p =>
                import_go freshRef bank_account_id rest p.1 (row_num + 1)
                  (posted + 1) skipped suspense errors
              | .error e =>
                if e.isValueError then
                  import_go freshRef bank_account_id rest L (row_num + 1) posted
                    (skipped + 1) suspense (errors ++ [⟨row_num, e.message⟩])
                else .error e

/-- Source: `import_rows(bank_account_id, rows)` — the shared posting loop
of the CSV and OFX imports.  Returns the mutated state and the summary with
the error list capped at 20 entries. -/
def import_rows (L : DB) (freshRef : String) (bank_account_id : Nat)
    (rows : List ImportRow) : Except LedgerError (DB × ImportResult) :=
  (import_go freshRef bank_account_id rows L 1 0 0 0 []).map (fun r =>
    (r.1, ⟨rows.length, r.2.1, r.2.2.1, r.2.2.2.1, r.2.2.2.2.take 20⟩))

-- ─── Concrete states used by witnesses and counterexamples ────────

/-- Account row with the default empty text columns. -/
def mkAcct (id : Nat) (name nb atype : String) : Account :=
  ⟨id, name, "", nb, atype, "", ""⟩

/-- State for the validation claims: a posting account, a total account and
one stored balanced transaction; no lock date. -/
def exC1 : DB :=
  { accounts := [mkAcct 1 "CASH" "D" "posting", mkAcct 2 "TOT" "D" "total"],
    transactions := [⟨1, "2025-03-01", "r1", "d",
      [⟨1, 100, "", 0, 0, 0⟩, ⟨1, -100, "", 0, 0, 1⟩]⟩],
    report_items := [], tax_codes := [], import_rules := [],
    lock_date := "", next_txn_id := 2 }

/-- State for the lock claims: lock date 2025-06-30 and one transaction
stored inside the locked period. -/
def exC2 : DB :=
  { accounts := [mkAcct 1 "A" "D" "posting", mkAcct 2 "B" "C" "posting"],
    transactions := [⟨1, "2025-01-15", "r1", "d",
      [⟨1, 100, "", 0, 0, 0⟩, ⟨2, -100, "", 0, 0, 1⟩]⟩],
    report_items := [], tax_codes := [], import_rules := [],
    lock_date := "2025-06-30", next_txn_id := 2 }

/-- State for the trial-balance witness: the example scenario of the spec,
Dr EX.RENT 150000 / Cr BANK.CHQ 150000. -/
def exC3 : DB :=
  { accounts := [mkAcct 1 "EX.RENT" "D" "posting", mkAcct 2 "BANK.CHQ" "D" "posting"],
    transactions := [⟨1, "2025-03-01", "r1", "rent",
      [⟨1, 150000, "", 0, 0, 0⟩, ⟨2, -150000, "", 0, 0, 1⟩]⟩],
    report_items := [], tax_codes := [], import_rules := [],
    lock_date := "", next_txn_id := 2 }

/-- The accumulation scenario of the spec: posting accounts A (raw 100),
B (raw 0), C (no postings), with exactly the edges B → A and A → C; the
offsetting credit of the only transaction sits on OFF, which appears on no
report. -/
def exC4 : DB :=
  { accounts := [mkAcct 1 "A" "D" "posting", mkAcct 2 "B" "D" "posting",
                 mkAcct 3 "C" "D" "posting", mkAcct 4 "OFF" "D" "posting"],
    transactions := [⟨1, "2025-01-15", "r1", "d",
      [⟨1, 100, "", 0, 0, 0⟩, ⟨4, -100, "", 0, 0, 1⟩]⟩],
    report_items :=
      [⟨1, 1, 10, "account", "", some 2, 0, "A", "", "", "", "", "", ""⟩,
       ⟨2, 1, 20, "account", "", some 1, 0, "C", "", "", "", "", "", ""⟩,
       ⟨3, 1, 30, "account", "", some 3, 0, "", "", "", "", "", "", ""⟩],
    tax_codes := [], import_rules := [],
    lock_date := "", next_txn_id := 2 }

/-- State for the ledger witness: one credit-normal account with two
postings on different dates. -/
def exC5 : DB :=
  { accounts := [mkAcct 1 "REV" "C" "posting", mkAcct 2 "BANK" "D" "posting"],
    transactions :=
      [⟨1, "2025-02-01", "r1", "sale",
        [⟨2, 5000, "", 0, 0, 0⟩, ⟨1, -5000, "", 0, 0, 1⟩]⟩,
       ⟨2, "2025-01-05", "r2", "sale",
        [⟨2, 2000, "", 0, 0, 0⟩, ⟨1, -2000, "", 0, 0, 1⟩]⟩],
    report_items := [], tax_codes := [], import_rules := [],
    lock_date := "", next_txn_id := 3 }

/-- Import state with a 5 percent inclusive tax code, one keyword rule and
all referenced accounts present. -/
def exC6 : DB :=
  { accounts := [mkAcct 1 "BANK.CHQ" "D" "posting", mkAcct 2 "EX.AUTO" "D" "posting",
                 mkAcct 3 "GST.IN" "D" "posting", mkAcct 4 "GST.OUT" "C" "posting"],
    transactions := [], report_items := [],
    tax_codes := [⟨"G5", "GST 5 percent", 5, "GST.OUT", "GST.IN"⟩],
    import_rules := [⟨1, "SHELL", "EX.AUTO", "G5", 10, ""⟩],
    lock_date := "", next_txn_id := 1 }

/-- Import state whose matched rule carries a tax code with a non-zero but
negative rate. -/
def exC6n : DB :=
  { accounts := [mkAcct 1 "BANK.CHQ" "D" "posting", mkAcct 2 "EX.AUTO" "D" "posting"],
    transactions := [], report_items := [],
    tax_codes := [⟨"N5", "negative rate", -5, "GST.OUT", "GST.IN"⟩],
    import_rules := [⟨1, "PETRO", "EX.AUTO", "N5", 10, ""⟩],
    lock_date := "", next_txn_id := 1 }

/-- Import state for the batch-summary witness: a bank account and the
suspense account, no rules. -/
def exC7 : DB :=
  { accounts := [mkAcct 1 "BANK" "D" "posting", mkAcct 2 "EX.SUSP" "D" "posting"],
    transactions := [], report_items := [], tax_codes := [], import_rules := [],
    lock_date := "", next_txn_id := 1 }

/-- A batch with one unparsable date, one valid row and one missing
description. -/
def exC7rows : List ImportRow :=
  [⟨"99/99/9999", "coffee", 500, ""⟩,
   ⟨"2025-01-02", "lunch", -1200, ""⟩,
   ⟨"2025-01-03", "", 100, ""⟩]

/-- Minimal report state for the sixth-slot claim: one displayed account
item with a blank `total_to_6`. -/
def exC8 : DB :=
  { accounts := [mkAcct 1 "A" "D" "posting"],
    transactions := [],
    report_items := [⟨1, 1, 10, "account", "", some 1, 0, "", "", "", "", "", "", ""⟩],
    tax_codes := [], import_rules := [],
    lock_date := "", next_txn_id := 1 }

/-- The same state with `total_to_6` set on the displayed item. -/
def exC8b : DB :=
  { exC8 with report_items :=
      [⟨1, 1, 10, "account", "", some 1, 0, "", "", "", "", "", "X", ""⟩] }

/-- State for the not-found claim: one stored transaction with id 1; the id
99 is unknown. -/
def exC9 : DB :=
  { accounts := [], transactions := [⟨1, "2025-02-02", "r1", "d", []⟩],
    report_items := [], tax_codes := [], import_rules := [],
    lock_date := "", next_txn_id := 2 }

/-- State for the bulk-delete witness: a lock date, one locked and one
unlocked transaction. -/
def exC10 : DB :=
  { accounts := [], transactions :=
      [⟨1, "2025-01-01", "r1", "d", []⟩, ⟨2, "2025-07-01", "r2", "d", []⟩],
    report_items := [], tax_codes := [], import_rules := [],
    lock_date := "2025-06-30", next_txn_id := 3 }

/-- The stored state after a call to `add_transaction`: the new state on
commit, the old state on rollback (the source `get_db` context manager
commits on success and rolls back on any exception). -/
def add_result (L : DB) (freshRef date_str reference descr : String)
    (lines : List (Nat × Int × String)) : DB :=
  match add_transaction L freshRef date_str reference descr lines with
  | .ok p => p.1
  | .error _ => L

/-- The stored state after a call to `update_transaction` (commit or
rollback, as for `add_result`). -/
def update_result (L : DB) (txn_id : Nat) (date_str reference descr : String)
    (lines : List ULine) : DB :=
  match update_transaction L txn_id date_str reference descr lines with
  | .ok L2 => L2
  | .error _ => L

/-- Setting the sixth total-to slot of the item at a given index (what
`update_report_item(item_id, total_to_6=...)` does to the stored rows). -/
def setTT6 : List ReportItem → Nat → String → List ReportItem
  | [], _, _ => []
  | ri :: rest, 0, s => { ri with total_to_6 := s } :: rest
  | ri :: rest, n + 1, s => ri :: setTT6 rest n s

-- ─── C9 ───────────────────────────────────────────────────────────

/-- C9, counterexample: deleting the unknown transaction id 99 does not
report a not-found error; the call succeeds and leaves the stored state
untouched, contradicting the claim that unknown ids are reported. -/
theorem c9_counterexample :
    delete_transaction exC9 99 = Except.ok exC9 ∧
    ∀ t ∈ exC9.transactions, t.id ≠ 99 := by
  constructor
  · rfl
  · decide

/-- C9, amended: for an id with no stored transaction,
`delete_transaction` reports no error at all — it succeeds as a silent
no-op (`DELETE` affects zero rows) and returns the state unchanged. -/
theorem c9_unknown_id_silent_noop (L : DB) (txn_id : Nat)
    (h : ∀ t ∈ L.transactions, t.id ≠ txn_id) :
    delete_transaction L txn_id = .ok L := by
  have hfind : L.transactions.find? (fun t => t.id == txn_id) = none := by
    rw [List.find?_eq_none]
    intro t ht
    simpa using h t ht
  have hfilt : L.transactions.filter (fun t => t.id != txn_id) = L.transactions := by
    rw [List.filter_eq_self]
    intro t ht
    simpa using h t ht
  unfold delete_transaction
  split
  · rw [hfind, hfilt]
  · rw [hfilt]

/-- C9, witness: the amended theorem applied to the concrete state. -/
theorem c9_unknown_id_silent_noop_witness :
    delete_transaction exC9 99 = .ok exC9 :=
  c9_unknown_id_silent_noop exC9 99 (by decide)

-- ─── C1 ───────────────────────────────────────────────────────────

/-- The Boolean total-account scan of `add_transaction` as a proposition. -/
theorem anyTotal_iff (L : DB) (lines : List (Nat × Int × String)) :
    (lines.any (fun l =>
      match findAccount L l.1 with
      | some a => a.account_type == "total"
      | none => false) = true) ↔
    ∃ l ∈ lines, ∃ a, findAccount L l.1 = some a ∧ a.account_type = "total" := by
  rw [List.any_eq_true]
  constructor
  · rintro ⟨l, hl, hb⟩
    refine ⟨l, hl, ?_⟩
    cases hfa : findAccount L l.1 with
    | none => rw [hfa] at hb; simp at hb
    | some a => rw [hfa] at hb; exact ⟨a, rfl, by simpa using hb⟩
  · rintro ⟨l, hl, a, hfa, ht⟩
    exact ⟨l, hl, by rw [hfa]; simpa using ht⟩

/-- C1, counterexample: `update_transaction` accepts a submitted line set
with a single line (fewer than 2) that targets a total account; the claim
says any such call is rejected. -/
theorem c1_counterexample :
    (update_transaction exC1 1 "2025-03-02" "r" "d" [⟨2, 0, "x", 0, 0⟩]).isOk = true ∧
    ([(⟨2, 0, "x", 0, 0⟩ : ULine)].length < 2) ∧
    (findAccount exC1 2).map (fun a => a.account_type) = some "total" := by
  refine ⟨rfl, by decide, rfl⟩

/-- Branch evaluation of `add_transaction`: unbalanced lines. -/
theorem add_eq_unbalanced (L : DB) (fr ds ref d : String) (lines)
    (h : (lines.map (fun l => l.2.1)).sum ≠ 0) :
    add_transaction L fr ds ref d lines = .error .Unbalanced := by
  simp [add_transaction, h]

/-- Branch evaluation of `add_transaction`: fewer than 2 lines. -/
theorem add_eq_toofew (L : DB) (fr ds ref d : String) (lines)
    (h0 : (lines.map (fun l => l.2.1)).sum = 0) (h : lines.length < 2) :
    add_transaction L fr ds ref d lines = .error .TooFewLines := by
  simp [add_transaction, h0, h]

/-- Branch evaluation of `add_transaction`: a line targets a total account. -/
theorem add_eq_total (L : DB) (fr ds ref d : String) (lines)
    (h0 : (lines.map (fun l => l.2.1)).sum = 0) (h1 : ¬ lines.length < 2)
    (h2 : (lines.any (fun l =>
      match findAccount L l.1 with
      | some a => a.account_type == "total"
      | none => false)) = true) :
    add_transaction L fr ds ref d lines = .error .PostingToTotalAccount := by
  simp [add_transaction, h0, h1, h2]

/-- Branch evaluation of `add_transaction`: lock-date violation. -/
theorem add_eq_locked (L : DB) (fr ds ref d : String) (lines)
    (h0 : (lines.map (fun l => l.2.1)).sum = 0) (h1 : ¬ lines.length < 2)
    (h2 : (lines.any (fun l =>
      match findAccount L l.1 with
      | some a => a.account_type == "total"
      | none => false)) = false)
    (h3 : L.lock_date ≠ "" ∧ strLe ds L.lock_date = true) :
    add_transaction L fr ds ref d lines = .error .Locked := by
  simp [add_transaction, h0, h1, h2, h3]

/-- Branch evaluation of `add_transaction`: every check passes and the
write commits. -/
theorem add_isOk (L : DB) (fr ds ref d : String) (lines)
    (h0 : (lines.map (fun l => l.2.1)).sum = 0) (h1 : ¬ lines.length < 2)
    (h2 : (lines.any (fun l =>
      match findAccount L l.1 with
      | some a => a.account_type == "total"
      | none => false)) = false)
    (h3 : ¬ (L.lock_date ≠ "" ∧ strLe ds L.lock_date = true))
    (h4 : lines.all (fun l => (findAccount L l.1).isSome) = true) :
    (add_transaction L fr ds ref d lines).isOk = true := by
  simp only [add_transaction]
  rw [if_neg (not_not_intro h0), if_neg h1, if_neg (by simp [h2]), if_neg h3,
    if_pos h4]
  rfl

/-- Branch evaluation of `update_transaction`: unbalanced lines. -/
theorem upd_eq_unbalanced (L : DB) (tid : Nat) (ds ref d : String) (ulines)
    (h : (ulines.map (fun x => x.amount)).sum ≠ 0) :
    update_transaction L tid ds ref d ulines = .error .Unbalanced := by
  simp [update_transaction, h]

/-- Branch evaluation of `update_transaction`: lock-date violation against
the new date. -/
theorem upd_eq_locked (L : DB) (tid : Nat) (ds ref d : String) (ulines)
    (h0 : (ulines.map (fun x => x.amount)).sum = 0)
    (h : L.lock_date ≠ "" ∧ strLe ds L.lock_date = true) :
    update_transaction L tid ds ref d ulines = .error .Locked := by
  simp [update_transaction, h0, h]

/-- Branch evaluation of `update_transaction`: balance and lock pass and
the foreign keys hold, so the write commits. -/
theorem upd_isOk (L : DB) (tid : Nat) (ds ref d : String) (ulines)
    (h0 : (ulines.map (fun x => x.amount)).sum = 0)
    (h1 : ¬ (L.lock_date ≠ "" ∧ strLe ds L.lock_date = true))
    (h2 : (ulines.isEmpty ||
      (L.transactions.any (fun t => t.id == tid) &&
       ulines.all (fun ul => (findAccount L ul.account_id).isSome))) = true) :
    (update_transaction L tid ds ref d ulines).isOk = true := by
  simp only [update_transaction]
  rw [if_neg (not_not_intro h0), if_neg h1, if_pos h2]
  rfl

/-- C1, amended: `add_transaction` (whose lines all reference existing
accounts) is rejected exactly when the line set is unbalanced, has fewer
than 2 lines, targets a total account, or is dated on or before a set lock
date; `update_transaction` (of an existing transaction, lines on existing
accounts) is rejected exactly when the line set is unbalanced or the new
date is on or before the lock date — it does not re-check the line count or
total accounts.  On any rejection the stored ledger is unchanged. -/
theorem c1_validation_characterization
    (L : DB) (freshRef date_str reference descr : String)
    (lines : List (Nat × Int × String))
    (txn_id : Nat) (udate uref udescr : String) (ulines : List ULine) :
    (lines.all (fun l => (findAccount L l.1).isSome) = true →
      ((add_transaction L freshRef date_str reference descr lines).isOk = false ↔
        ((lines.map (fun l => l.2.1)).sum ≠ 0 ∨ lines.length < 2 ∨
         (∃ l ∈ lines, ∃ a, findAccount L l.1 = some a ∧ a.account_type = "total") ∨
         (L.lock_date ≠ "" ∧ strLe date_str L.lock_date = true)))) ∧
    ((add_transaction L freshRef date_str reference descr lines).isOk = false →
      add_result L freshRef date_str reference descr lines = L) ∧
    (L.transactions.any (fun t => t.id == txn_id) = true →
     ulines.all (fun ul => (findAccount L ul.account_id).isSome) = true →
      ((update_transaction L txn_id udate uref udescr ulines).isOk = false ↔
        ((ulines.map (·.amount)).sum ≠ 0 ∨
         (L.lock_date ≠ "" ∧ strLe udate L.lock_date = true)))) ∧
    ((update_transaction L txn_id udate uref udescr ulines).isOk = false →
      update_result L txn_id udate uref udescr ulines = L) := by
  refine ⟨?_, ?_, ?_, ?_⟩
  · intro hall
    constructor
    · intro hfail
      by_contra hnone
      push_neg at hnone
      obtain ⟨hn1, hn2, hn3, hn4⟩ := hnone
      have hb : (lines.any (fun l =>
          match findAccount L l.1 with
          | some a => a.account_type == "total"
          | none => false)) = false := by
        rw [Bool.eq_false_iff]
        intro hcon
        obtain ⟨l, hl, a, hfa, ht⟩ := (anyTotal_iff L lines).mp hcon
        exact hn3 l hl a hfa ht
      rw [add_isOk L freshRef date_str reference descr lines hn1 (by omega) hb
        (fun hc => absurd hc.2 (hn4 hc.1)) hall] at hfail
      exact absurd hfail (by simp)
    · intro hdisj
      by_cases h1 : (lines.map (fun l => l.2.1)).sum = 0
      · by_cases h2 : lines.length < 2
        · rw [add_eq_toofew L freshRef date_str reference descr lines h1 h2]; rfl
        · cases hb : (lines.any (fun l =>
            match findAccount L l.1 with
            | some a => a.account_type == "total"
            | none => false)) with
          | true =>
            rw [add_eq_total L freshRef date_str reference descr lines h1 h2 hb]; rfl
          | false =>
            by_cases h4 : L.lock_date ≠ "" ∧ strLe date_str L.lock_date = true
            · rw [add_eq_locked L freshRef date_str reference descr lines h1 h2 hb h4]
              rfl
            · exfalso
              rcases hdisj with hc | hc | hc | hc
              · exact hc h1
              · exact h2 hc
              · rw [(anyTotal_iff L lines).mpr hc] at hb; exact absurd hb (by simp)
              · exact h4 hc
      · rw [add_eq_unbalanced L freshRef date_str reference descr lines h1]; rfl
  · intro hfail
    unfold add_result
    cases hres : add_transaction L freshRef date_str reference descr lines with
    | ok p =>
      rw [hres] at hfail
      exact absurd hfail (by simp [Except.isOk, Except.toBool])
    | error e => rfl
  · intro hex hall
    constructor
    · intro hfail
      by_contra hnone
      push_neg at hnone
      obtain ⟨hn1, hn2⟩ := hnone
      rw [upd_isOk L txn_id udate uref udescr ulines hn1
        (fun hc => absurd hc.2 (hn2 hc.1)) (by simp [hex, hall])] at hfail
      exact absurd hfail (by simp)
    · intro hdisj
      by_cases h1 : (ulines.map (fun x => x.amount)).sum = 0
      · by_cases h2 : L.lock_date ≠ "" ∧ strLe udate L.lock_date = true
        · rw [upd_eq_locked L txn_id udate uref udescr ulines h1 h2]; rfl
        · exfalso
          rcases hdisj with hc | hc
          · exact hc h1
          · exact h2 hc
      · rw [upd_eq_unbalanced L txn_id udate uref udescr ulines h1]; rfl
  · intro hfail
    unfold update_result
    cases hres : update_transaction L txn_id udate uref udescr ulines with
    | ok L2 =>
      rw [hres] at hfail
      exact absurd hfail (by simp [Except.isOk, Except.toBool])
    | error e => rfl

/-- C1, witness: the characterization applied to concrete calls — an
unbalanced 2-line add is rejected, and a 1-line balanced update of the
stored transaction is accepted. -/
theorem c1_validation_characterization_witness :
    ((add_transaction exC1 "g" "2025-03-02" "" "d" [(1, 5, ""), (1, -4, "")]).isOk
        = false) ∧
    ((update_transaction exC1 1 "2025-03-02" "r" "d" [⟨1, 0, "x", 0, 0⟩]).isOk
        = true) := by
  constructor
  · exact ((c1_validation_characterization exC1 "g" "2025-03-02" "" "d"
      [(1, 5, ""), (1, -4, "")] 1 "2025-03-02" "r" "d"
      [⟨1, 0, "x", 0, 0⟩]).1 (by decide)).mpr (Or.inl (by decide))
  · have h := ((c1_validation_characterization exC1 "g" "2025-03-02" "" "d"
      [(1, 5, ""), (1, -4, "")] 1 "2025-03-02" "r" "d"
      [⟨1, 0, "x", 0, 0⟩]).2.2.1 (by decide) (by decide))
    by_cases hf : (update_transaction exC1 1 "2025-03-02" "r" "d"
        [⟨1, 0, "x", 0, 0⟩]).isOk = false
    · exact absurd (h.mp hf) (by decide)
    · simpa using hf

-- ─── C2 ───────────────────────────────────────────────────────────

/-- C2, counterexample: with lock date 2025-06-30, editing the stored
transaction dated 2025-01-15 (on or before the lock) succeeds when the new
date supplied to the edit lies after the lock — the claim says such an edit
always fails with the lock error regardless of the new date. -/
theorem c2_counterexample :
    exC2.lock_date ≠ "" ∧
    (∃ t, exC2.transactions.find? (fun u => u.id == 1) = some t ∧
      strLe t.date exC2.lock_date = true) ∧
    (update_transaction exC2 1 "2025-07-01" "r" "d"
      [⟨1, 100, "", 0, 0⟩, ⟨2, -100, "", 0, 0⟩]).isOk = true := by
  refine ⟨by decide, ⟨⟨1, "2025-01-15", "r1", "d",
    [⟨1, 100, "", 0, 0, 0⟩, ⟨2, -100, "", 0, 0, 1⟩]⟩, rfl, by decide⟩, rfl⟩

/-- C2, amended: with a lock date set, `add_transaction` dated on or before
the lock always fails — with the `Locked` error whenever the earlier
balance, line-count and total-account validations pass; `delete_transaction`
of a stored transaction dated on or before the lock fails with the `Locked`
error; `update_transaction` fails whenever the NEW date supplied to the edit
is on or before the lock (with `Locked` when the lines balance) — the stored
date of the edited transaction is not consulted. -/
theorem c2_lock_enforcement
    (L : DB) (freshRef ds ref d : String) (lines : List (Nat × Int × String))
    (tid : Nat) (uds uref ud : String) (ulines : List ULine) :
    (L.lock_date ≠ "" → strLe ds L.lock_date = true →
      (add_transaction L freshRef ds ref d lines).isOk = false) ∧
    (L.lock_date ≠ "" → strLe ds L.lock_date = true →
      (lines.map (fun l => l.2.1)).sum = 0 → ¬ lines.length < 2 →
      (lines.any (fun l =>
        match findAccount L l.1 with
        | some a => a.account_type == "total"
        | none => false)) = false →
      add_transaction L freshRef ds ref d lines = .error .Locked) ∧
    (∀ t, L.transactions.find? (fun u => u.id == tid) = some t →
      L.lock_date ≠ "" → strLe t.date L.lock_date = true →
      delete_transaction L tid = .error .Locked) ∧
    (L.lock_date ≠ "" → strLe uds L.lock_date = true →
      (update_transaction L tid uds uref ud ulines).isOk = false) ∧
    (L.lock_date ≠ "" → strLe uds L.lock_date = true →
      (ulines.map (fun x => x.amount)).sum = 0 →
      update_transaction L tid uds uref ud ulines = .error .Locked) := by
  refine ⟨?_, ?_, ?_, ?_, ?_⟩
  · intro hlk hds
    by_cases h1 : (lines.map (fun l => l.2.1)).sum = 0
    · by_cases h2 : lines.length < 2
      · rw [add_eq_toofew L freshRef ds ref d lines h1 h2]; rfl
      · cases hb : (lines.any (fun l =>
          match findAccount L l.1 with
          | some a => a.account_type == "total"
          | none => false)) with
        | true => rw [add_eq_total L freshRef ds ref d lines h1 h2 hb]; rfl
        | false =>
          rw [add_eq_locked L freshRef ds ref d lines h1 h2 hb ⟨hlk, hds⟩]; rfl
    · rw [add_eq_unbalanced L freshRef ds ref d lines h1]; rfl
  · intro hlk hds h1 h2 hb
    exact add_eq_locked L freshRef ds ref d lines h1 h2 hb ⟨hlk, hds⟩
  · intro t hfind hlk hdate
    unfold delete_transaction
    rw [if_pos hlk, hfind]
    simp only [if_pos hdate]
  · intro hlk hds
    by_cases h1 : (ulines.map (fun x => x.amount)).sum = 0
    · rw [upd_eq_locked L tid uds uref ud ulines h1 ⟨hlk, hds⟩]; rfl
    · rw [upd_eq_unbalanced L tid uds uref ud ulines h1]; rfl
  · intro hlk hds h1
    exact upd_eq_locked L tid uds uref ud ulines h1 ⟨hlk, hds⟩

/-- C2, witness: the lock enforcement applied to the concrete locked state
— a locked-date add fails, the locked stored transaction cannot be deleted,
and an edit dated inside the locked period fails with the lock error. -/
theorem c2_lock_enforcement_witness :
    (add_transaction exC2 "g" "2025-05-01" "" "d" [(1, 7, "")]).isOk = false ∧
    delete_transaction exC2 1 = .error .Locked ∧
    update_transaction exC2 1 "2025-06-01" "r" "d" [] = .error .Locked := by
  refine ⟨?_, ?_, ?_⟩
  · exact (c2_lock_enforcement exC2 "g" "2025-05-01" "" "d" [(1, 7, "")] 1
      "2025-06-01" "r" "d" []).1 (by decide) (by decide)
  · exact (c2_lock_enforcement exC2 "g" "2025-05-01" "" "d" [(1, 7, "")] 1
      "2025-06-01" "r" "d" []).2.2.1
      ⟨1, "2025-01-15", "r1", "d", [⟨1, 100, "", 0, 0, 0⟩, ⟨2, -100, "", 0, 0, 1⟩]⟩
      rfl (by decide) (by decide)
  · exact (c2_lock_enforcement exC2 "g" "2025-05-01" "" "d" [(1, 7, "")] 1
      "2025-06-01" "r" "d" []).2.2.2.2 (by decide) (by decide) (by decide)

-- ─── C4 ───────────────────────────────────────────────────────────

/-- C4, counterexample: in the described system (edges exactly B → A and
A → C, A raw 100, B raw 0, C unposted, all three debit-normal),
`compute_report_column` pairs item A with 100, not with the 200 the claim
requires: B contributes nothing into A, so the value of A is its own balance. -/
theorem c4_counterexample :
    ("A", (100 : Int)) ∈ (compute_report_column exC4 1 none none none none).map
      (fun p => (p.1.acct_name, p.2)) ∧
    ("A", (200 : Int)) ∉ (compute_report_column exC4 1 none none none none).map
      (fun p => (p.1.acct_name, p.2)) := by
  constructor
  · decide
  · decide

/-- C4, amended: in that system the column pairs B with 0, A with 100 (its
own balance plus the zero accumulated from B) and C with 100 (the value
accumulated from A). -/
theorem c4_accumulation_values :
    (compute_report_column exC4 1 none none none none).map
      (fun p => (p.1.acct_name, p.2)) = [("B", 0), ("A", 100), ("C", 100)] := by
  decide

-- ─── C8 counterexample ────────────────────────────────────────────

/-- C8, counterexample: two states identical except that the sixth total-to
slot of the single displayed item is blank in one and set in the other; the
outputs of `compute_report_column` differ, because each output pair echoes
the full item row including `total_to_6`.  This contradicts the claim that
the output is identical. -/
theorem c8_counterexample :
    exC8b.report_items = setTT6 exC8.report_items 0 "X" ∧
    compute_report_column exC8b 1 none none none none ≠
      compute_report_column exC8 1 none none none none := by
  constructor
  · decide
  · decide

-- ─── C10 ──────────────────────────────────────────────────────────

/-- Accumulator shift of the bulk-delete loop: the final state is
independent of the starting counters and the counters are pure offsets. -/
theorem bulk_delete_go_shift (txn_ids : List Nat) :
    ∀ (L : DB) (d s : Nat),
      (bulk_delete_go L txn_ids d s).1 = (bulk_delete_go L txn_ids 0 0).1 ∧
      (bulk_delete_go L txn_ids d s).2.1 = d + (bulk_delete_go L txn_ids 0 0).2.1 ∧
      (bulk_delete_go L txn_ids d s).2.2 = s + (bulk_delete_go L txn_ids 0 0).2.2 := by
  induction txn_ids with
  | nil => intro L d s; simp [bulk_delete_go]
  | cons tid rest ih =>
    intro L d s
    simp only [bulk_delete_go]
    split
    · cases hfind : L.transactions.find? (fun t => t.id == tid) with
      | some t =>
        by_cases hdate : strLe t.date L.lock_date = true
        · simp only [if_pos hdate]
          have A := ih L d (s + 1)
          have B := ih L 0 (0 + 1)
          have C := ih L 0 0
          refine ⟨by rw [A.1, B.1], by omega, by omega⟩
        · simp only [if_neg hdate]
          have A := ih { L with
            transactions := L.transactions.filter (fun u => u.id != tid) } (d + 1) s
          have B := ih { L with
            transactions := L.transactions.filter (fun u => u.id != tid) } (0 + 1) 0
          refine ⟨by rw [A.1, B.1], by omega, by omega⟩
      | none =>
        dsimp only
        have A := ih { L with
          transactions := L.transactions.filter (fun u => u.id != tid) } (d + 1) s
        have B := ih { L with
          transactions := L.transactions.filter (fun u => u.id != tid) } (0 + 1) 0
        refine ⟨by rw [A.1, B.1], by omega, by omega⟩
    · have A := ih { L with
        transactions := L.transactions.filter (fun u => u.id != tid) } (d + 1) s
      have B := ih { L with
        transactions := L.transactions.filter (fun u => u.id != tid) } (0 + 1) 0
      refine ⟨by rw [A.1, B.1], by omega, by omega⟩

/-- Every processed id increments exactly one of the two counters. -/
theorem bulk_delete_go_counts (txn_ids : List Nat) :
    ∀ (L : DB) (d s : Nat),
      (bulk_delete_go L txn_ids d s).2.1 + (bulk_delete_go L txn_ids d s).2.2 =
        d + s + txn_ids.length := by
  induction txn_ids with
  | nil => intro L d s; simp [bulk_delete_go]
  | cons tid rest ih =>
    intro L d s
    simp only [bulk_delete_go, List.length_cons]
    split
    · cases hfind : L.transactions.find? (fun t => t.id == tid) with
      | some t =>
        by_cases hdate : strLe t.date L.lock_date = true
        · simp only [if_pos hdate]
          have A := ih L d (s + 1)
          omega
        · simp only [if_neg hdate]
          have A := ih { L with
            transactions := L.transactions.filter (fun u => u.id != tid) } (d + 1) s
          omega
      | none =>
        dsimp only
        have A := ih { L with
          transactions := L.transactions.filter (fun u => u.id != tid) } (d + 1) s
        omega
    · have A := ih { L with
        transactions := L.transactions.filter (fun u => u.id != tid) } (d + 1) s
      omega

/-- In a transaction list with unique ids, the lookup by a member's id
returns that member. -/
theorem find?_id_of_nodup :
    ∀ (l : List Txn), (l.map (fun t => t.id)).Nodup →
      ∀ t ∈ l, l.find? (fun u => u.id == t.id) = some t := by
  intro l
  induction l with
  | nil => intro _ t ht; exact absurd ht (List.not_mem_nil t)
  | cons u l' ih =>
    intro hnd t ht
    rw [List.map_cons, List.nodup_cons] at hnd
    cases hu : (u.id == t.id) with
    | true =>
      have : u = t := by
        rcases List.mem_cons.mp ht with h | h
        · exact h.symm
        · exact absurd (by
            rw [show u.id = t.id from by simpa using hu]
            exact List.mem_map.mpr ⟨t, h, rfl⟩) hnd.1
      rw [List.find?_cons, hu, this]
    | false =>
      have htl : t ∈ l' := by
        rcases List.mem_cons.mp ht with h | h
        · subst h; simp at hu
        · exact h
      rw [List.find?_cons, hu]
      exact ih hnd.2 t htl

/-- Deleting an id no stored transaction carries leaves the list intact. -/
theorem filter_ne_id_of_absent (l : List Txn) (tid : Nat)
    (h : ∀ t ∈ l, t.id ≠ tid) : l.filter (fun u => u.id != tid) = l := by
  rw [List.filter_eq_self]
  intro t ht
  simpa using h t ht

/-- The final state of the loop does not depend on the starting counters. -/
theorem bulk_go_state (L : DB) (txn_ids : List Nat) (d s : Nat) :
    (bulk_delete_go L txn_ids d s).1 = (bulk_delete_transactions L txn_ids).1 :=
  (bulk_delete_go_shift txn_ids L d s).1

/-- Which transactions survive a bulk delete: exactly those never targeted,
or protected by the lock date. -/
theorem bulk_survival (txn_ids : List Nat) :
    ∀ (L : DB), (L.transactions.map (fun t => t.id)).Nodup →
      ∀ t, t ∈ (bulk_delete_transactions L txn_ids).1.transactions ↔
        (t ∈ L.transactions ∧ (t.id ∉ txn_ids ∨
          (L.lock_date ≠ "" ∧ strLe t.date L.lock_date = true))) := by
  induction txn_ids with
  | nil =>
    intro L _ t
    simp [bulk_delete_transactions, bulk_delete_go]
  | cons tid rest ih =>
    intro L hnd t
    have hdel : ∀ hlk : Prop,
        (hlk ↔ (L.lock_date ≠ "" ∧ strLe t.date L.lock_date = true)) →
        (¬ (t ∈ L.transactions ∧ t.id = tid ∧ hlk)) →
        (t ∈ (bulk_delete_transactions
            { L with transactions :=
              L.transactions.filter (fun u => u.id != tid) } rest).1.transactions ↔
          (t ∈ L.transactions ∧ (t.id ∉ tid :: rest ∨
            (L.lock_date ≠ "" ∧ strLe t.date L.lock_date = true)))) := by
      intro hlk hiff hno
      have hnd2 : (({ L with transactions :=
          L.transactions.filter (fun u => u.id != tid) } : DB).transactions.map
            (fun t => t.id)).Nodup :=
        ((L.transactions.filter_sublist).map (fun t => t.id)).nodup hnd
      rw [ih _ hnd2 t]
      show (t ∈ L.transactions.filter (fun u => u.id != tid) ∧ _) ↔ _
      simp only [List.mem_filter]
      constructor
      · rintro ⟨⟨hmem, hne⟩, hrest⟩
        have hne2 : t.id ≠ tid := by simpa using hne
        refine ⟨hmem, ?_⟩
        rcases hrest with h | h
        · exact Or.inl (by simp [List.mem_cons, hne2, h])
        · exact Or.inr h
      · rintro ⟨hmem, hrest⟩
        have hne2 : t.id ≠ tid := by
          intro hc
          rcases hrest with h | h
          · exact h (hc ▸ List.mem_cons_self tid rest)
          · exact hno ⟨hmem, hc, hiff.mpr h⟩
        refine ⟨⟨hmem, by simpa using hne2⟩, ?_⟩
        rcases hrest with h | h
        · exact Or.inl (fun hc => h (List.mem_cons_of_mem _ hc))
        · exact Or.inr h
    simp only [bulk_delete_transactions, bulk_delete_go]
    by_cases hlock : L.lock_date ≠ ""
    · rw [if_pos hlock]
      cases hfind : L.transactions.find? (fun u => u.id == tid) with
      | some u =>
        by_cases hdate : strLe u.date L.lock_date = true
        · simp only [if_pos hdate]
          rw [bulk_go_state, ih L hnd t]
          constructor
          · rintro ⟨hmem, hrest⟩
            refine ⟨hmem, ?_⟩
            by_cases hid : t.id = tid
            · right
              have hft : L.transactions.find? (fun v => v.id == t.id) = some t :=
                find?_id_of_nodup L.transactions hnd t hmem
              rw [hid, hfind] at hft
              cases hft
              exact ⟨hlock, hdate⟩
            · rcases hrest with h | h
              · exact Or.inl (by simp [List.mem_cons, hid, h])
              · exact Or.inr h
          · rintro ⟨hmem, hrest⟩
            refine ⟨hmem, ?_⟩
            rcases hrest with h | h
            · exact Or.inl (fun hc => h (List.mem_cons_of_mem _ hc))
            · exact Or.inr h
        · simp only [if_neg hdate]
          rw [bulk_go_state]
          refine hdel (L.lock_date ≠ "" ∧ strLe t.date L.lock_date = true)
            Iff.rfl ?_
          rintro ⟨hmem, hid, -, hdt⟩
          have hft : L.transactions.find? (fun v => v.id == t.id) = some t :=
            find?_id_of_nodup L.transactions hnd t hmem
          rw [hid, hfind] at hft
          cases hft
          exact hdate hdt
      | none =>
        dsimp only
        rw [bulk_go_state]
        refine hdel (L.lock_date ≠ "" ∧ strLe t.date L.lock_date = true)
          Iff.rfl ?_
        rintro ⟨hmem, hid, -⟩
        have := List.find?_eq_none.mp hfind t hmem
        simp [hid] at this
    · rw [if_neg hlock]
      rw [bulk_go_state]
      refine hdel (L.lock_date ≠ "" ∧ strLe t.date L.lock_date = true)
        Iff.rfl ?_
      rintro ⟨-, -, hlk, -⟩
      exact hlock hlk

/-- An unknown id at the head of the batch is counted as deleted (the
`DELETE` affects zero rows) and the rest proceeds on the unchanged state. -/
theorem bulk_unknown_head (L : DB) (tid : Nat) (rest : List Nat)
    (h : ∀ t ∈ L.transactions, t.id ≠ tid) :
    bulk_delete_transactions L (tid :: rest) =
      ((bulk_delete_transactions L rest).1,
       (bulk_delete_transactions L rest).2.1 + 1,
       (bulk_delete_transactions L rest).2.2) := by
  have hfilt := filter_ne_id_of_absent L.transactions tid h
  have hshift := bulk_delete_go_shift rest L (0 + 1) 0
  simp only [bulk_delete_transactions, bulk_delete_go]
  by_cases hlock : L.lock_date ≠ ""
  · rw [if_pos hlock]
    have hfind : L.transactions.find? (fun u => u.id == tid) = none := by
      rw [List.find?_eq_none]
      intro x hx
      simpa using h x hx
    rw [hfind]
    dsimp only
    rw [hfilt]
    show bulk_delete_go L rest (0 + 1) 0 =
      ((bulk_delete_go L rest 0 0).1, (bulk_delete_go L rest 0 0).2.1 + 1,
       (bulk_delete_go L rest 0 0).2.2)
    refine Prod.ext hshift.1 (Prod.ext ?_ ?_)
    · show (bulk_delete_go L rest (0 + 1) 0).2.1 =
        (bulk_delete_go L rest 0 0).2.1 + 1
      have := hshift.2.1; omega
    · show (bulk_delete_go L rest (0 + 1) 0).2.2 = (bulk_delete_go L rest 0 0).2.2
      have := hshift.2.2; omega
  · rw [if_neg hlock]
    rw [hfilt]
    show bulk_delete_go L rest (0 + 1) 0 =
      ((bulk_delete_go L rest 0 0).1, (bulk_delete_go L rest 0 0).2.1 + 1,
       (bulk_delete_go L rest 0 0).2.2)
    refine Prod.ext hshift.1 (Prod.ext ?_ ?_)
    · show (bulk_delete_go L rest (0 + 1) 0).2.1 =
        (bulk_delete_go L rest 0 0).2.1 + 1
      have := hshift.2.1; omega
    · show (bulk_delete_go L rest (0 + 1) 0).2.2 = (bulk_delete_go L rest 0 0).2.2
      have := hshift.2.2; omega

/-- C10: `bulk_delete_transactions` returns counts with
`deleted + skipped = length of the input list`; an id with no stored
transaction is counted as deleted (no error); and, for a store with unique
transaction ids, a stored transaction survives the call exactly when its id
is never targeted or it is protected by a set lock date (targeted
transactions dated on or before the lock are skipped and left in place). -/
theorem c10_bulk_delete_spec :
    (∀ (L : DB) (txn_ids : List Nat),
      (bulk_delete_transactions L txn_ids).2.1 +
        (bulk_delete_transactions L txn_ids).2.2 = txn_ids.length) ∧
    (∀ (L : DB) (tid : Nat) (rest : List Nat),
      (∀ t ∈ L.transactions, t.id ≠ tid) →
      bulk_delete_transactions L (tid :: rest) =
        ((bulk_delete_transactions L rest).1,
         (bulk_delete_transactions L rest).2.1 + 1,
         (bulk_delete_transactions L rest).2.2)) ∧
    (∀ (L : DB) (txn_ids : List Nat),
      (L.transactions.map (fun t => t.id)).Nodup →
      ∀ t, t ∈ (bulk_delete_transactions L txn_ids).1.transactions ↔
        (t ∈ L.transactions ∧ (t.id ∉ txn_ids ∨
          (L.lock_date ≠ "" ∧ strLe t.date L.lock_date = true)))) := by
  refine ⟨?_, ?_, ?_⟩
  · intro L txn_ids
    have := bulk_delete_go_counts txn_ids L 0 0
    simpa [bulk_delete_transactions] using this
  · exact bulk_unknown_head
  · intro L txn_ids h
    exact bulk_survival txn_ids L h

/-- C10, witness: on the concrete locked state, deleting ids 1 (locked),
2 (live) and 99 (unknown) gives deleted + skipped = 3 and keeps the locked
transaction; the unknown id 99 against a one-transaction store counts as
deleted. -/
theorem c10_bulk_delete_spec_witness :
    ((bulk_delete_transactions exC10 [1, 2, 99]).2.1 +
      (bulk_delete_transactions exC10 [1, 2, 99]).2.2 = 3) ∧
    ((⟨1, "2025-01-01", "r1", "d", []⟩ : Txn) ∈
      (bulk_delete_transactions exC10 [1, 2, 99]).1.transactions) ∧
    (bulk_delete_transactions exC9 [99] = (exC9, 1, 0)) := by
  refine ⟨?_, ?_, ?_⟩
  · exact c10_bulk_delete_spec.1 exC10 [1, 2, 99]
  · exact (c10_bulk_delete_spec.2.2 exC10 [1, 2, 99] (by decide) _).mpr
      ⟨by decide, Or.inr ⟨by decide, by decide⟩⟩
  · have h := c10_bulk_delete_spec.2.1 exC9 99 [] (by decide)
    exact h.trans (by decide)

-- ─── C3 ───────────────────────────────────────────────────────────

/-- Pointwise addition distributes over a list sum. -/
theorem sum_map_add_distrib {α : Type} (l : List α) (f g : α → Int) :
    (l.map (fun x => f x + g x)).sum = (l.map f).sum + (l.map g).sum := by
  induction l with
  | nil => simp
  | cons a l ih => simp [ih]; omega

/-- Summing a filtered list equals summing with the predicate as a guard. -/
theorem sum_filter_map_eq {α : Type} (p : α → Bool) (f : α → Int) (l : List α) :
    ((l.filter p).map f).sum = (l.map (fun x => if p x then f x else 0)).sum := by
  induction l with
  | nil => simp
  | cons a l ih =>
    cases hp : p a with
    | true => simp [List.filter_cons, hp, ih]
    | false => simp [List.filter_cons, hp, ih]

/-- Exchanging a double list sum. -/
theorem sum_map_swap {α β : Type} (A : List α) (T : List β) (g : α → β → Int) :
    (A.map (fun a => (T.map (g a)).sum)).sum =
      (T.map (fun t => (A.map (fun a => g a t)).sum)).sum := by
  induction A with
  | nil => simp
  | cons a A ih =>
    simp only [List.map_cons, List.sum_cons, ih]
    rw [← sum_map_add_distrib]

/-- Boolean equality of naturals is symmetric. -/
theorem nat_beq_comm (x y : Nat) : (x == y) = (y == x) := by
  by_cases h : x = y
  · subst h; rfl
  · simp [beq_iff_eq, h, Ne.symm h]

/-- Grouping a balanced line set by account: summing each account's filtered
lines over a covering, duplicate-free account list reproduces the total. -/
theorem sum_lines_grouped (lines : List Line) (A : List Account)
    (hcov : ∀ l ∈ lines, ∃ a ∈ A, a.id = l.account_id)
    (hnd : (A.map (fun a => a.id)).Nodup) :
    (A.map (fun a =>
      ((lines.filter (fun l => l.account_id == a.id)).map (fun l => l.amount)).sum)).sum
      = (lines.map (fun l => l.amount)).sum := by
  have hstep : ∀ (B : List Account),
      (B.map (fun a =>
        ((lines.filter (fun l => l.account_id == a.id)).map (fun l => l.amount)).sum)).sum
        = (lines.map (fun l =>
            ((B.countP (fun a => a.id == l.account_id) : Int)) * l.amount)).sum := by
    intro B
    induction B with
    | nil => simp
    | cons a B ih =>
      simp only [List.map_cons, List.sum_cons, ih, List.countP_cons]
      rw [sum_filter_map_eq]
      have : ∀ l : Line,
          ((B.countP (fun a => a.id == l.account_id) +
            if a.id == l.account_id then 1 else 0 : Nat) : Int) * l.amount =
          ((B.countP (fun a => a.id == l.account_id) : Int)) * l.amount +
            (if l.account_id == a.id then l.amount else 0) := by
        intro l
        rw [nat_beq_comm l.account_id a.id]
        cases hb : (a.id == l.account_id) with
        | true => simp; ring
        | false => simp
      rw [List.map_congr_left (fun l _ => this l), sum_map_add_distrib]
      omega
  rw [hstep A]
  have hone : ∀ l ∈ lines, (A.countP (fun a => a.id == l.account_id)) = 1 := by
    intro l hl
    have hc : A.countP (fun a => a.id == l.account_id) =
        (A.map (fun a => a.id)).count l.account_id := by
      rw [List.count, List.countP_map]
      rfl
    obtain ⟨a, ha, hid⟩ := hcov l hl
    have hmem : l.account_id ∈ A.map (fun a => a.id) :=
      List.mem_map.mpr ⟨a, ha, hid⟩
    have hge : 1 ≤ (A.map (fun a => a.id)).count l.account_id :=
      List.count_pos_iff.mpr hmem
    have hle : (A.map (fun a => a.id)).count l.account_id ≤ 1 :=
      List.nodup_iff_count_le_one.mp hnd l.account_id
    omega
  have : ∀ l ∈ lines,
      ((A.countP (fun a => a.id == l.account_id) : Int)) * l.amount = l.amount := by
    intro l hl
    rw [hone l hl]
    push_cast
    ring
  rw [List.map_congr_left this]

/-- The debit-minus-credit contribution of one trial-balance row equals the
raw balance of its account (for the schema-checked normal balances). -/
theorem tbRow_debit_sub_credit (L : DB) (as_of : Option String) (acct : Account)
    (hnb : acct.normal_balance = "D" ∨ acct.normal_balance = "C") :
    ((tbRow L as_of acct).elim 0 (fun r => r.debit - r.credit)) =
      get_account_balance L acct.id none as_of := by
  unfold tbRow
  by_cases hr : get_account_balance L acct.id none as_of = 0
  · rw [if_pos hr, hr]
    rfl
  · rw [if_neg hr]
    simp only [Option.elim]
    rcases hnb with h | h
    · rw [h]
      simp only [show (("D" : String) == "D") = true from rfl, if_true, mul_one,
        show (("D" : String) = "D") = True from by simp, and_true,
        show (("D" : String) = "C") = False from by simp, and_false, if_false]
      rcases lt_trichotomy (get_account_balance L acct.id none as_of) 0 with
        hlt | heq | hgt
      · rw [if_neg (by omega), if_pos hlt, abs_of_neg hlt]
        omega
      · exact absurd heq hr
      · rw [if_pos hgt, if_neg (by omega)]
        omega
    · rw [h]
      simp only [show (("C" : String) == "D") = false from rfl,
        show ((false : Bool) = true) = False from by simp, if_false,
        show (("C" : String) = "C") = True from by simp, and_true,
        show (("C" : String) = "D") = False from by simp, and_false,
        mul_neg_one]
      rcases lt_trichotomy (get_account_balance L acct.id none as_of) 0 with
        hlt | heq | hgt
      · rw [if_neg (by omega), if_pos (by omega)]
        omega
      · exact absurd heq hr
      · rw [if_pos (by omega), if_neg (by omega), abs_of_neg (by omega)]
        omega

/-- Total debit minus total credit over the emitted rows equals the sum of
raw balances over the scanned accounts. -/
theorem tb_totals_eq_raw_sum (L : DB) (as_of : Option String) :
    ∀ (accts : List Account),
      (∀ a ∈ accts, a.normal_balance = "D" ∨ a.normal_balance = "C") →
      (((accts.filterMap (tbRow L as_of)).map (fun r => r.debit)).sum -
       ((accts.filterMap (tbRow L as_of)).map (fun r => r.credit)).sum) =
      (accts.map (fun a => get_account_balance L a.id none as_of)).sum := by
  intro accts
  induction accts with
  | nil => intro _; simp
  | cons a accts ih =>
    intro hnb
    have ha := tbRow_debit_sub_credit L as_of a (hnb a (List.mem_cons_self a accts))
    have ih2 := ih (fun x hx => hnb x (List.mem_cons_of_mem a hx))
    simp only [List.filterMap_cons, List.map_cons, List.sum_cons]
    cases htb : tbRow L as_of a with
    | none =>
      rw [htb] at ha
      simp only [Option.elim] at ha
      simp only [List.map_cons, List.sum_cons, ← ha]
      omega
    | some r =>
      rw [htb] at ha
      simp only [Option.elim] at ha
      simp only [List.map_cons, List.sum_cons, ← ha]
      omega

/-- C3: when every stored transaction balances to zero and every line
targets a posting account (with the schema invariants: unique account ids,
normal balance D or C), `get_trial_balance` reports equal debit and credit
totals for every as-of date. -/
theorem c3_trial_balance_balanced (L : DB) (as_of : Option String)
    (h1 : ∀ t ∈ L.transactions, (t.lines.map (fun l => l.amount)).sum = 0)
    (h2 : ∀ t ∈ L.transactions, ∀ l ∈ t.lines,
      ∃ a ∈ L.accounts, a.id = l.account_id ∧ a.account_type = "posting")
    (h3 : (L.accounts.map (fun a => a.id)).Nodup)
    (h4 : ∀ a ∈ L.accounts, a.normal_balance = "D" ∨ a.normal_balance = "C") :
    (get_trial_balance L as_of).2.1 = (get_trial_balance L as_of).2.2 := by
  have hA : ∀ a ∈ (L.accounts.filter
      (fun a => a.account_type == "posting")).insertionSort acctNameLt,
      a.normal_balance = "D" ∨ a.normal_balance = "C" := by
    intro a ha
    have := (List.perm_insertionSort acctNameLt _).mem_iff.mp ha
    exact h4 a (List.mem_of_mem_filter this)
  have htot := tb_totals_eq_raw_sum L as_of _ hA
  have hperm : (((L.accounts.filter
      (fun a => a.account_type == "posting")).insertionSort acctNameLt).map
        (fun a => get_account_balance L a.id none as_of)).sum =
      ((L.accounts.filter (fun a => a.account_type == "posting")).map
        (fun a => get_account_balance L a.id none as_of)).sum :=
    ((List.perm_insertionSort acctNameLt _).map _).sum_eq
  have hzero : ((L.accounts.filter (fun a => a.account_type == "posting")).map
      (fun a => get_account_balance L a.id none as_of)).sum = 0 := by
    unfold get_account_balance
    rw [sum_map_swap]
    have hterm : ∀ t ∈ L.transactions.filter (fun t => dateOk t none as_of),
        ((L.accounts.filter (fun a => a.account_type == "posting")).map (fun a =>
          ((t.lines.filter (fun l => l.account_id == a.id)).map
            (fun l => l.amount)).sum)).sum = 0 := by
      intro t ht
      have htmem := List.mem_of_mem_filter ht
      rw [sum_lines_grouped t.lines _ ?_ ?_]
      · exact h1 t htmem
      · intro l hl
        obtain ⟨a, ha, hid, hpost⟩ := h2 t htmem l hl
        exact ⟨a, List.mem_filter.mpr ⟨ha, by simp [hpost]⟩, hid⟩
      · exact ((L.accounts.filter_sublist).map (fun a => a.id)).nodup h3
    rw [List.map_congr_left hterm]
    simp
  unfold get_trial_balance
  simp only
  omega

-- ─── C5 ───────────────────────────────────────────────────────────

/-- The running balance threaded by the ledger loop: the last emitted entry
carries the starting balance plus the display-signed sum of the rows. -/
theorem ledger_go_getLast (L : DB) (aid : Nat) (sign : Int) :
    ∀ (rows : List (Txn × Line)) (bal : Int) (e : LedgerEntry),
      (ledger_go L aid sign rows bal).getLast? = some e →
      e.running_balance = bal + (rows.map (fun p => p.2.amount * sign)).sum := by
  intro rows
  induction rows with
  | nil => intro bal e he; simp [ledger_go] at he
  | cons p rest ih =>
    intro bal e he
    obtain ⟨t, l⟩ := p
    cases rest with
    | nil =>
      simp only [ledger_go, List.getLast?_singleton, Option.some.injEq] at he
      subst he
      simp [ledger_go]
    | cons q rest2 =>
      obtain ⟨t2, l2⟩ := q
      simp only [ledger_go, List.getLast?_cons_cons] at he ⊢
      have := ih (bal + l.amount * sign) e he
      simp only [List.map_cons, List.sum_cons] at this ⊢
      omega

/-- Sums distribute over the flattened per-transaction row lists. -/
theorem sum_map_flatMap {α β : Type} (l : List α) (f : α → List β) (g : β → Int) :
    ((l.flatMap f).map g).sum = (l.map (fun a => ((f a).map g).sum)).sum := by
  induction l with
  | nil => simp
  | cons a l ih => simp [ih]

/-- C5: for an existing account, when `get_ledger` returns a non-empty
entry list, the `running_balance` of its last entry equals
`get_account_balance` over the same date range multiplied by the display
sign of the account's normal balance (+1 for D, -1 for C). -/
theorem c5_ledger_last_running_balance (L : DB) (aid : Nat)
    (date_from date_to : Option String) (acct : Account)
    (entries : List LedgerEntry) (e : LedgerEntry)
    (hacct : findAccount L aid = some acct)
    (hled : get_ledger L aid date_from date_to = some entries)
    (hlast : entries.getLast? = some e) :
    e.running_balance = get_account_balance L aid date_from date_to *
      (if acct.normal_balance == "D" then 1 else -1) := by
  unfold get_ledger at hled
  rw [hacct] at hled
  simp only [Option.some.injEq] at hled
  subst hled
  have hl := ledger_go_getLast L aid _ _ 0 e hlast
  rw [hl, zero_add]
  have hperm : (((((L.transactions.filter
        (fun t => dateOk t date_from date_to)).flatMap
          (fun t => (t.lines.filter (fun l => l.account_id == aid)).map
            (fun l => (t, l)))).insertionSort ledgerRowLt).map
      (fun p => p.2.amount * (if acct.normal_balance == "D" then (1 : Int) else -1))).sum) =
      ((((L.transactions.filter (fun t => dateOk t date_from date_to)).flatMap
          (fun t => (t.lines.filter (fun l => l.account_id == aid)).map
            (fun l => (t, l)))).map
      (fun p => p.2.amount * (if acct.normal_balance == "D" then (1 : Int) else -1))).sum) :=
    ((List.perm_insertionSort ledgerRowLt _).map _).sum_eq
  rw [hperm, List.sum_map_mul_right, sum_map_flatMap]
  unfold get_account_balance
  congr 1
  refine congrArg _ (List.map_congr_left ?_)
  intro t _
  rw [List.map_map]
  rfl

/-- C5, witness: on the concrete credit-normal account, the last ledger
entry carries running balance 7000 = (-7000) × (-1). -/
theorem c5_ledger_last_running_balance_witness :
    (⟨1, "2025-02-01", "r1", "sale", 5000, -5000, "BANK", 7000, 0, 0, 2⟩ :
        LedgerEntry).running_balance =
      get_account_balance exC5 1 none none *
        (if (("C" : String) == "D") then 1 else -1) :=
  c5_ledger_last_running_balance exC5 1 none none
    ⟨1, "REV", "", "C", "posting", "", ""⟩
    [⟨2, "2025-01-05", "r2", "sale", 2000, -2000, "BANK", 2000, 0, 0, 2⟩,
     ⟨1, "2025-02-01", "r1", "sale", 5000, -5000, "BANK", 7000, 0, 0, 2⟩]
    ⟨1, "2025-02-01", "r1", "sale", 5000, -5000, "BANK", 7000, 0, 0, 2⟩
    (by decide) (by decide) (by decide)

/-- C3, witness: the concrete rent posting of the spec example balances the
trial balance. -/
theorem c3_trial_balance_balanced_witness :
    (get_trial_balance exC3 none).2.1 = (get_trial_balance exC3 none).2.2 :=
  c3_trial_balance_balanced exC3 none (by decide)
    (by
      intro t ht l hl
      fin_cases ht
      fin_cases hl
      · exact ⟨⟨1, "EX.RENT", "", "D", "posting", "", ""⟩, by decide, by decide, rfl⟩
      · exact ⟨⟨2, "BANK.CHQ", "", "D", "posting", "", ""⟩, by decide, by decide, rfl⟩)
    (by decide) (by decide)

-- ─── C6 ───────────────────────────────────────────────────────────

/-- C6, counterexample: a row matched to a rule whose tax code has the
non-zero rate -5 is NOT split — `apply_rules` returns no tax info (the
source splits only for `rate_percent > 0`), so the posted transaction is the
plain 2-line one, contradicting the claim for every non-zero rate. -/
theorem c6_counterexample :
    (get_tax_code exC6n "N5").map (fun tc => tc.rate_percent) = some (-5) ∧
    ((-5 : ℚ) ≠ 0) ∧
    apply_rules exC6n "PETRO CANADA" (-10500) = ("EX.AUTO", "N5", none) := by
  refine ⟨rfl, by norm_num, by decide⟩

/-- Rounding of the concrete 5 percent split: 10500 × 5 / 105 = 500. -/
theorem pyRound_exC6 : pyRound ((|(10500 : Int)| : ℚ) * 5 / (100 + 5)) = 500 := by
  have hq : ((|(10500 : Int)| : ℚ) * 5 / (100 + 5)) = ((500 : Int) : ℚ) := by
    norm_num
  rw [hq]
  unfold pyRound
  rw [Int.floor_intCast]
  norm_num

/-- Evaluation of `apply_rules` on the concrete 10500-cent row: the 5
percent inclusive code splits it into net 10000 and tax 500 on the
collected account. -/
theorem apply_rules_exC6 : apply_rules exC6 "SHELL STATION" 10500 =
    ("EX.AUTO", "G5", some ⟨10000, 500, "GST.OUT"⟩) := by
  have hfind : (get_import_rules exC6).find? (fun r =>
      decide ((strLower r.keyword).data <:+: (strLower "SHELL STATION").data)) =
      some ⟨1, "SHELL", "EX.AUTO", "G5", 10, ""⟩ := by decide
  simp only [apply_rules, hfind]
  rw [show get_tax_code exC6 "G5" =
    some ⟨"G5", "GST 5 percent", 5, "GST.OUT", "GST.IN"⟩ from rfl]
  rw [if_pos (by decide : ¬ ("G5" : String) = "")]
  dsimp only
  rw [if_pos (by norm_num : (5 : ℚ) > 0)]
  rw [pyRound_exC6]
  decide

/-- C6, amended: whenever `apply_rules` returns a split (which it does
exactly for a matched tax code with positive rate), the split satisfies
`tax = round(|amount| × rate / (100 + rate))` (round half to even, as
the Python `round`) and `net = |amount| − tax`, so `tax + net = |amount|`
exactly; in particular a 10500-cent row under the 5 percent inclusive code
splits into tax 500 and net 10000, and the resulting 3-line transaction
posted by `import_rows` sums to zero. -/
theorem c6_tax_split :
    (∀ (L : DB) (description : String) (amount_cents : Int)
        (an code : String) (ti : TaxInfo),
      apply_rules L description amount_cents = (an, code, some ti) →
      ti.tax + ti.net = |amount_cents| ∧
      ∃ tc, get_tax_code L code = some tc ∧ 0 < tc.rate_percent ∧
        ti.tax = pyRound ((|amount_cents| : ℚ) * tc.rate_percent /
          (100 + tc.rate_percent)) ∧
        ti.net = |amount_cents| - ti.tax) ∧
    (apply_rules exC6 "SHELL STATION" 10500 =
      ("EX.AUTO", "G5", some ⟨10000, 500, "GST.OUT"⟩)) ∧
    ((import_rows exC6 "g1" 1 [⟨"2025-03-05", "SHELL STATION", 10500, "r1"⟩]).toOption.map
      (fun pr => (pr.1.transactions.map (fun t =>
        ((t.lines.map (fun l => l.amount)).sum, t.lines.length)), pr.2.posted)) =
      some ([(0, 3)], 1)) := by
  refine ⟨?_, apply_rules_exC6, ?_⟩
  swap
  · simp only [import_rows, import_go, apply_rules_exC6]
    decide
  intro L description amount_cents an code ti h
  simp only [apply_rules] at h
  cases hfind : (get_import_rules L).find? (fun r =>
      decide ((strLower r.keyword).data <:+: (strLower description).data)) with
  | none => rw [hfind] at h; simp at h
  | some rule =>
    rw [hfind] at h
    simp only at h
    by_cases hid : rule.tax_code ≠ ""
    · rw [if_pos hid] at h
      cases htc : get_tax_code L rule.tax_code with
      | none => rw [htc] at h; simp at h
      | some tc =>
        rw [htc] at h
        dsimp only at h
        by_cases hrate : tc.rate_percent > 0
        · rw [if_pos hrate] at h
          simp only [Prod.mk.injEq, Option.some.injEq] at h
          obtain ⟨h1, h2, h3⟩ := h
          subst h2
          subst h3
          refine ⟨by simp, tc, htc, hrate, rfl, rfl⟩
        · rw [if_neg hrate] at h
          simp at h
    · rw [if_neg hid] at h
      simp at h

/-- C6, witness: the split characterization applied to the concrete
10500-cent row — tax 500 plus net 10000 reproduce the amount exactly. -/
theorem c6_tax_split_witness :
    (⟨10000, 500, "GST.OUT"⟩ : TaxInfo).tax +
      (⟨10000, 500, "GST.OUT"⟩ : TaxInfo).net = |(10500 : Int)| :=
  (c6_tax_split.1 exC6 "SHELL STATION" 10500 "EX.AUTO" "G5"
    ⟨10000, 500, "GST.OUT"⟩ apply_rules_exC6).1

-- ─── C7 ───────────────────────────────────────────────────────────

/-- A committed `add_transaction` touches only the transactions table and
the id counter. -/
theorem add_transaction_ok_fields (L : DB) (fr ds ref d : String)
    (lines : List (Nat × Int × String)) (q : DB × Nat)
    (h : add_transaction L fr ds ref d lines = .ok q) :
    q.1.accounts = L.accounts ∧ q.1.lock_date = L.lock_date ∧
    q.1.tax_codes = L.tax_codes ∧ q.1.import_rules = L.import_rules := by
  simp only [add_transaction] at h
  split at h
  · exact Except.noConfusion h
  split at h
  · exact Except.noConfusion h
  split at h
  · exact Except.noConfusion h
  split at h
  · exact Except.noConfusion h
  split at h
  · simp only [Except.ok.injEq] at h
    subst h
    exact ⟨rfl, rfl, rfl, rfl⟩
  · exact Except.noConfusion h

/-- With every line on an existing account, `add_transaction` cannot fail
with a foreign-key violation (the only non-`ValueError` outcome). -/
theorem add_transaction_not_fk (L : DB) (fr ds ref d : String)
    (lines : List (Nat × Int × String))
    (hall : lines.all (fun l => (findAccount L l.1).isSome) = true) :
    add_transaction L fr ds ref d lines ≠ .error .ForeignKeyViolation := by
  intro h
  simp only [add_transaction] at h
  split at h
  · simp at h
  split at h
  · simp at h
  split at h
  · simp at h
  split at h
  · simp at h
  split at h
  · exact Except.noConfusion h
  · simp_all

/-- Account lookups only read the accounts table. -/
theorem findAccount_eq_of_accounts (L L2 : DB) (h : L2.accounts = L.accounts)
    (x : Nat) : findAccount L2 x = findAccount L x := by
  unfold findAccount
  rw [h]

/-- An account found by name is found by its id. -/
theorem findAccount_isSome_of_by_name (L : DB) (nm : String) (a : Account)
    (h : get_account_by_name L nm = some a) :
    (findAccount L a.id).isSome = true :=
  List.find?_isSome.mpr ⟨a, List.mem_of_find?_eq_some h, by simp⟩

/-- The summary invariant of the import loop: given an existing bank
account the loop always returns (no uncaught exception), every row
increments exactly one of `posted`/`skipped`, and every skip appends
exactly one error entry. -/
theorem import_go_spec (fr : String) (bank : Nat) :
    ∀ (rows : List ImportRow) (L : DB) (n p s su : Nat) (errs : List ImpError),
      (findAccount L bank).isSome = true →
      ∃ L2 p2 s2 su2 errs2,
        import_go fr bank rows L n p s su errs = .ok (L2, p2, s2, su2, errs2) ∧
        p2 + s2 = p + s + rows.length ∧
        errs2.length + s = errs.length + s2 ∧
        s ≤ s2 := by
  intro rows
  induction rows with
  | nil =>
    intro L n p s su errs hb
    exact ⟨L, p, s, su, errs, rfl, by simp, by omega, le_refl s⟩
  | cons row rest ih =>
    intro L n p s su errs hb
    simp only [import_go]
    by_cases hdesc : row.descr = ""
    · rw [if_pos hdesc]
      obtain ⟨L2, p2, s2, su2, errs2, hgo, h1, h2, h3⟩ :=
        ih L (n + 1) p (s + 1) su (errs ++ [⟨n, "Missing description"⟩]) hb
      refine ⟨L2, p2, s2, su2, errs2, hgo,
        by simp only [List.length_cons]; omega, ?_, by omega⟩
      simp only [List.length_append, List.length_singleton] at h2
      omega
    · rw [if_neg hdesc]
      cases hnd : normalize_date row.date with
      | none =>
        dsimp only
        obtain ⟨L2, p2, s2, su2, errs2, hgo, h1, h2, h3⟩ :=
          ih L (n + 1) p (s + 1) su
            (errs ++ [⟨n, "Bad date " ++ row.date⟩]) hb
        refine ⟨L2, p2, s2, su2, errs2, hgo,
        by simp only [List.length_cons]; omega, ?_, by omega⟩
        simp only [List.length_append, List.length_singleton] at h2
        omega
      | some row_date =>
        dsimp only
        by_cases hlock : L.lock_date ≠ "" ∧ strLe row_date L.lock_date = true
        · rw [if_pos hlock]
          obtain ⟨L2, p2, s2, su2, errs2, hgo, h1, h2, h3⟩ :=
            ih L (n + 1) p (s + 1) su
              (errs ++ [⟨n, "Before lock date " ++ L.lock_date⟩]) hb
          refine ⟨L2, p2, s2, su2, errs2, hgo,
        by simp only [List.length_cons]; omega, ?_, by omega⟩
          simp only [List.length_append, List.length_singleton] at h2
          omega
        · rw [if_neg hlock]
          by_cases hamt : row.amount_cents = 0
          · rw [if_pos hamt]
            obtain ⟨L2, p2, s2, su2, errs2, hgo, h1, h2, h3⟩ :=
              ih L (n + 1) p (s + 1) su (errs ++ [⟨n, "Zero amount"⟩]) hb
            refine ⟨L2, p2, s2, su2, errs2, hgo,
        by simp only [List.length_cons]; omega, ?_, by omega⟩
            simp only [List.length_append, List.length_singleton] at h2
            omega
          · rw [if_neg hamt]
            rcases happ : apply_rules L row.descr row.amount_cents with
              ⟨ma, tcode, tinfo⟩
            dsimp only
            cases haccn : get_account_by_name L ma with
            | none =>
              dsimp only
              obtain ⟨L2, p2, s2, su2, errs2, hgo, h1, h2, h3⟩ :=
                ih L (n + 1) p (s + 1) su
                  (errs ++ [⟨n, "Account " ++ ma ++ " not found"⟩]) hb
              refine ⟨L2, p2, s2, su2, errs2, hgo,
        by simp only [List.length_cons]; omega, ?_, by omega⟩
              simp only [List.length_append, List.length_singleton] at h2
              omega
            | some target =>
              dsimp only
              have htgt : (findAccount L target.id).isSome = true :=
                findAccount_isSome_of_by_name L ma target haccn
              have hstep : ∀ (call : Except LedgerError (DB × Nat)),
                  (∀ q, call = .ok q → q.1.accounts = L.accounts) →
                  call ≠ .error .ForeignKeyViolation →
                  ∃ (L2 : DB) (p2 s2 su2 : Nat) (errs2 : List ImpError),
                    ((match call with
                      | .ok q =>
                        import_go fr bank rest q.1 (n + 1) (p + 1) s
                          (if ma = "EX.SUSP" then su + 1 else su) errs
                      | .error e =>
                        if e.isValueError = true then
                          import_go fr bank rest L (n + 1) p (s + 1)
                            (if ma = "EX.SUSP" then su + 1 else su)
                            (errs ++ [(⟨n, e.message⟩ : ImpError)])
                        else .error e) :
                      Except LedgerError (DB × Nat × Nat × Nat × List ImpError)) =
                      .ok (L2, p2, s2, su2, errs2) ∧
                    p2 + s2 = p + s + (rest.length + 1) ∧
                    errs2.length + s = errs.length + s2 ∧
                    s ≤ s2 := by
                intro call hfields hnfk
                cases hres : call with
                | ok q =>
                  have hb2 : (findAccount q.1 bank).isSome = true := by
                    rw [findAccount_eq_of_accounts L q.1 (hfields q hres) bank]
                    exact hb
                  obtain ⟨L2, p2, s2, su2, errs2, hgo, h1, h2, h3⟩ :=
                    ih q.1 (n + 1) (p + 1) s
                      (if ma = "EX.SUSP" then su + 1 else su) errs hb2
                  exact ⟨L2, p2, s2, su2, errs2, hgo, by omega, by omega, h3⟩
                | error e =>
                  have hval : e.isValueError = true := by
                    cases e with
                    | ForeignKeyViolation => exact absurd hres hnfk
                    | Unbalanced => rfl
                    | TooFewLines => rfl
                    | PostingToTotalAccount => rfl
                    | Locked => rfl
                  dsimp only
                  rw [if_pos hval]
                  obtain ⟨L2, p2, s2, su2, errs2, hgo, h1, h2, h3⟩ :=
                    ih L (n + 1) p (s + 1)
                      (if ma = "EX.SUSP" then su + 1 else su)
                      (errs ++ [⟨n, e.message⟩]) hb
                  refine ⟨L2, p2, s2, su2, errs2, hgo, by omega, ?_, by omega⟩
                  simp only [List.length_append, List.length_singleton] at h2
                  omega
              have hX : (findAccount L
                  (if row.amount_cents < 0 then target.id else bank)).isSome
                    = true := by
                split
                · exact htgt
                · exact hb
              have hY : (findAccount L
                  (if row.amount_cents < 0 then bank else target.id)).isSome
                    = true := by
                split
                · exact hb
                · exact htgt
              have hsimple : ∀ ref2 d2 amt2,
                  (add_simple_transaction L fr row_date ref2 d2
                    (if row.amount_cents < 0 then target.id else bank)
                    (if row.amount_cents < 0 then bank else target.id) amt2 =
                      .error .ForeignKeyViolation → False) ∧
                  (∀ q, add_simple_transaction L fr row_date ref2 d2
                    (if row.amount_cents < 0 then target.id else bank)
                    (if row.amount_cents < 0 then bank else target.id) amt2 =
                      .ok q → q.1.accounts = L.accounts) := by
                intro ref2 d2 amt2
                constructor
                · intro hcon
                  exact add_transaction_not_fk L fr row_date ref2 d2 _
                    (by simp [hX, hY]) hcon
                · intro q hq
                  exact (add_transaction_ok_fields L fr row_date ref2 d2 _ q hq).1
              cases tinfo with
              | none =>
                dsimp only
                have hs2 := hsimple row.reference row.descr |row.amount_cents|
                exact hstep _ (fun q hq => hs2.2 q hq) (fun hcon => hs2.1 hcon)
              | some ti =>
                dsimp only
                by_cases htx : ti.tax ≠ 0
                · rw [if_pos htx]
                  cases htax : get_account_by_name L ti.tax_acct with
                  | none =>
                    dsimp only
                    have hs2 := hsimple row.reference row.descr |row.amount_cents|
                    exact hstep _ (fun q hq => hs2.2 q hq)
                      (fun hcon => hs2.1 hcon)
                  | some tax_acct =>
                    dsimp only
                    have htax2 : (findAccount L tax_acct.id).isSome = true :=
                      findAccount_isSome_of_by_name L ti.tax_acct tax_acct htax
                    have hall3 : ((if row.amount_cents < 0 then
                        [(target.id, ti.net, row.descr),
                         (tax_acct.id, ti.tax,
                           tcode ++ " on " ++ strTake row.descr 30),
                         (bank, -(ti.net + ti.tax), row.descr)]
                      else
                        [(bank, ti.net + ti.tax, row.descr),
                         (target.id, -ti.net, row.descr),
                         (tax_acct.id, -ti.tax,
                           tcode ++ " on " ++ strTake row.descr 30)]).all
                        (fun l => (findAccount L l.1).isSome)) = true := by
                      split
                      · simp [htgt, htax2, hb]
                      · simp [htgt, htax2, hb]
                    exact hstep _
                      (fun q hq => (add_transaction_ok_fields L fr row_date
                        row.reference row.descr _ q hq).1)
                      (add_transaction_not_fk L fr row_date row.reference
                        row.descr _ hall3)
                · rw [if_neg htx]
                  have hs2 := hsimple row.reference row.descr |row.amount_cents|
                  exact hstep _ (fun q hq => hs2.2 q hq) (fun hcon => hs2.1 hcon)

/-- C7: when the bank account exists, `import_rows` never raises for a bad
row — it returns a summary with `rows_processed` equal to the input length,
every row counted in exactly one of `posted`/`skipped`, one error reason per
skipped row, and the returned error list capped at 20 entries. -/
theorem c7_import_rows_summary (L : DB) (fr : String) (bank : Nat)
    (rows : List ImportRow)
    (hb : (findAccount L bank).isSome = true) :
    ∃ L2 res, import_rows L fr bank rows = .ok (L2, res) ∧
      res.rows_processed = rows.length ∧
      res.posted + res.skipped = rows.length ∧
      res.errors.length = min res.skipped 20 ∧
      res.errors.length ≤ 20 := by
  obtain ⟨L2, p2, s2, su2, errs2, hgo, h1, h2, h3⟩ :=
    import_go_spec fr bank rows L 1 0 0 0 [] hb
  simp only [List.length_nil] at h2
  refine ⟨L2, ⟨rows.length, p2, s2, su2, errs2.take 20⟩, ?_, rfl, ?_, ?_, ?_⟩
  · unfold import_rows
    rw [hgo]
    rfl
  · show p2 + s2 = rows.length
    omega
  · show (errs2.take 20).length = min s2 20
    simp only [List.length_take]
    omega
  · show (errs2.take 20).length ≤ 20
    simp only [List.length_take]
    omega

/-- C7, witness: the concrete 3-row batch (bad date, valid row, missing
description) is imported without an exception; the valid row still posts. -/
theorem c7_import_rows_summary_witness :
    (import_rows exC7 "g1" 1 exC7rows).isOk = true := by
  obtain ⟨L2, res, h1, -, -, -, -⟩ :=
    c7_import_rows_summary exC7 "g1" 1 exC7rows (by decide)
  rw [h1]
  rfl

-- ─── C8, amended: the sixth total-to slot is inert ────────────────

/-- Stored item with its sixth total-to slot erased: two items with equal
`riCore` differ at most in `total_to_6`, the one slot `tt_fields` omits. -/
def riCore (r : ReportItem) : ReportItem := { r with total_to_6 := "" }

/-- Joined item row with its sixth total-to slot erased. -/
def viewCore (v : ItemView) : ItemView := { v with total_to_6 := "" }

/-- Agreement of two stored items outside `total_to_6`. -/
abbrev rcRel (a b : ReportItem) : Prop := riCore a = riCore b

/-- Agreement of two joined item rows outside `total_to_6`. -/
abbrev vcRel (a b : ItemView) : Prop := viewCore a = viewCore b

lemma rc_report_id {a b : ReportItem} (h : rcRel a b) :
    a.report_id = b.report_id := @congrArg _ _ (riCore a) (riCore b) ReportItem.report_id h

lemma rc_position {a b : ReportItem} (h : rcRel a b) :
    a.position = b.position := @congrArg _ _ (riCore a) (riCore b) ReportItem.position h

lemma vc_account_id {a b : ItemView} (h : vcRel a b) :
    a.account_id = b.account_id := @congrArg _ _ (viewCore a) (viewCore b) ItemView.account_id h

lemma vc_account_type {a b : ItemView} (h : vcRel a b) :
    a.account_type = b.account_type := @congrArg _ _ (viewCore a) (viewCore b) ItemView.account_type h

lemma vc_acct_name {a b : ItemView} (h : vcRel a b) :
    a.acct_name = b.acct_name := @congrArg _ _ (viewCore a) (viewCore b) ItemView.acct_name h

lemma vc_normal_balance {a b : ItemView} (h : vcRel a b) :
    a.normal_balance = b.normal_balance := @congrArg _ _ (viewCore a) (viewCore b) ItemView.normal_balance h

lemma vc_ttFields {a b : ItemView} (h : vcRel a b) :
    ttFields a = ttFields b := by
  unfold ttFields
  rw [show a.total_to_1 = b.total_to_1 from @congrArg _ _ (viewCore a) (viewCore b) ItemView.total_to_1 h,
      show a.total_to_2 = b.total_to_2 from @congrArg _ _ (viewCore a) (viewCore b) ItemView.total_to_2 h,
      show a.total_to_3 = b.total_to_3 from @congrArg _ _ (viewCore a) (viewCore b) ItemView.total_to_3 h,
      show a.total_to_4 = b.total_to_4 from @congrArg _ _ (viewCore a) (viewCore b) ItemView.total_to_4 h,
      show a.total_to_5 = b.total_to_5 from @congrArg _ _ (viewCore a) (viewCore b) ItemView.total_to_5 h]

lemma forall2_rc_refl (l : List ReportItem) : List.Forall₂ rcRel l l := by
  induction l with
  | nil => exact List.Forall₂.nil
  | cons a l ih => exact List.Forall₂.cons rfl ih

lemma setTT6_core (rs : List ReportItem) :
    ∀ (i : Nat) (s : String), List.Forall₂ rcRel (setTT6 rs i s) rs := by
  induction rs with
  | nil => intro i s; exact List.Forall₂.nil
  | cons a l ih =>
    intro i s
    cases i with
    | zero => exact List.Forall₂.cons rfl (forall2_rc_refl l)
    | succ n => exact List.Forall₂.cons rfl (ih n s)

lemma forall2_filter {α : Type} {R : α → α → Prop} (p : α → Bool)
    (hp : ∀ a b, R a b → p a = p b) :
    ∀ {l m : List α}, List.Forall₂ R l m →
      List.Forall₂ R (l.filter p) (m.filter p) := by
  intro l m h
  induction h with
  | nil => exact List.Forall₂.nil
  | cons hab htl ih =>
    rename_i a b l2 m2
    by_cases hpa : p a = true
    · rw [List.filter_cons_of_pos hpa,
        List.filter_cons_of_pos (by rw [← hp a b hab]; exact hpa)]
      exact List.Forall₂.cons hab ih
    · rw [List.filter_cons_of_neg (by simpa using hpa),
        List.filter_cons_of_neg (by rw [← hp a b hab]; simpa using hpa)]
      exact ih

lemma forall2_orderedInsert {α : Type} {R : α → α → Prop}
    (r : α → α → Prop) [DecidableRel r]
    (hr : ∀ a b c d, R a b → R c d → (r a c ↔ r b d)) :
    ∀ {l m : List α} {a b : α}, R a b → List.Forall₂ R l m →
      List.Forall₂ R (l.orderedInsert r a) (m.orderedInsert r b) := by
  intro l m a b hab h
  induction h with
  | nil => exact List.Forall₂.cons hab List.Forall₂.nil
  | cons hcd htl ih =>
    rename_i c d l2 m2
    by_cases hrc : r a c
    · simp only [List.orderedInsert]
      rw [if_pos hrc, if_pos ((hr a b c d hab hcd).mp hrc)]
      exact List.Forall₂.cons hab (List.Forall₂.cons hcd htl)
    · simp only [List.orderedInsert]
      rw [if_neg hrc, if_neg (fun hbd => hrc ((hr a b c d hab hcd).mpr hbd))]
      exact List.Forall₂.cons hcd ih

lemma forall2_insertionSort {α : Type} {R : α → α → Prop}
    (r : α → α → Prop) [DecidableRel r]
    (hr : ∀ a b c d, R a b → R c d → (r a c ↔ r b d)) :
    ∀ {l m : List α}, List.Forall₂ R l m →
      List.Forall₂ R (l.insertionSort r) (m.insertionSort r) := by
  intro l m h
  induction h with
  | cons hab htl ih =>
    simpa only [List.insertionSort] using forall2_orderedInsert r hr hab ih
  | nil => exact List.Forall₂.nil

lemma toView_setTT6 (L : DB) (r : ReportItem) (s : String) :
    toView L { r with total_to_6 := s } =
      { toView L r with total_to_6 := s } := by
  unfold toView
  dsimp only
  cases hm : r.account_id.bind (findAccount L) with
  | none => rfl
  | some a => rfl

lemma toView_core_congr (L : DB) {a b : ReportItem} (h : rcRel a b) :
    vcRel (toView L a) (toView L b) := by
  show viewCore (toView L a) = viewCore (toView L b)
  rw [show viewCore (toView L a) = toView L (riCore a) from
        (toView_setTT6 L a "").symm,
      show viewCore (toView L b) = toView L (riCore b) from
        (toView_setTT6 L b "").symm, h]

lemma forall2_map_toView (L : DB) {l m : List ReportItem}
    (h : List.Forall₂ rcRel l m) :
    List.Forall₂ vcRel (l.map (toView L)) (m.map (toView L)) := by
  induction h with
  | nil => exact List.Forall₂.nil
  | cons hab htl ih => exact List.Forall₂.cons (toView_core_congr L hab) ih

lemma posLt_core_iff (a b c d : ReportItem) (h1 : rcRel a b)
    (h2 : rcRel c d) : posLt a c ↔ posLt b d := by
  unfold posLt
  rw [rc_position h1, rc_position h2]

lemma reportPosLt_core_iff (a b c d : ReportItem) (h1 : rcRel a b)
    (h2 : rcRel c d) : reportPosLt a c ↔ reportPosLt b d := by
  unfold reportPosLt
  rw [rc_position h1, rc_position h2, rc_report_id h1, rc_report_id h2]

lemma get_report_items_setTT6 (L : DB) (i : Nat) (s : String) (rid : Nat) :
    List.Forall₂ vcRel
      (get_report_items { L with report_items := setTT6 L.report_items i s } rid)
      (get_report_items L rid) := by
  unfold get_report_items
  dsimp only
  rw [show toView { L with report_items := setTT6 L.report_items i s } =
        toView L from rfl]
  exact forall2_map_toView L (forall2_insertionSort posLt posLt_core_iff
    (forall2_filter _ (fun a b h => by rw [rc_report_id h])
      (setTT6_core L.report_items i s)))

lemma get_all_report_items_setTT6 (L : DB) (i : Nat) (s : String) :
    List.Forall₂ vcRel
      (get_all_report_items { L with report_items := setTT6 L.report_items i s })
      (get_all_report_items L) := by
  unfold get_all_report_items
  dsimp only
  rw [show toView { L with report_items := setTT6 L.report_items i s } =
        toView L from rfl]
  exact forall2_map_toView L (forall2_insertionSort reportPosLt
    reportPosLt_core_iff (setTT6_core L.report_items i s))

lemma step1_core_eq (bb : Nat → Int) :
    ∀ {l m : List ItemView}, List.Forall₂ vcRel l m →
      ∀ seen acc, step1_raw_bal bb l seen acc = step1_raw_bal bb m seen acc := by
  intro l m h
  induction h with
  | nil => intro seen acc; rfl
  | cons hab htl ih =>
    intro seen acc
    simp only [step1_raw_bal, vc_account_id hab, vc_account_type hab,
      vc_acct_name hab]
    split
    · exact ih _ _
    · exact ih _ _

lemma step2_core_eq :
    ∀ {l m : List ItemView}, List.Forall₂ vcRel l m →
      ∀ acc, step2_acct_tt l acc = step2_acct_tt m acc := by
  intro l m h
  induction h with
  | nil => intro acc; rfl
  | cons hab htl ih =>
    intro acc
    simp only [step2_acct_tt, vc_acct_name hab, vc_ttFields hab]
    split
    · exact ih _
    · exact ih _

lemma buildNbMap_core_eq :
    ∀ {l m : List ItemView}, List.Forall₂ vcRel l m →
      ∀ acc, buildNbMap l acc = buildNbMap m acc := by
  intro l m h
  induction h with
  | nil => intro acc; rfl
  | cons hab htl ih =>
    intro acc
    simp only [buildNbMap, vc_acct_name hab, vc_normal_balance hab]
    split
    · exact ih _
    · exact ih _

lemma forall2_display_map (v : ItemView → Int)
    (hv : ∀ a b, vcRel a b → v a = v b) :
    ∀ {l m : List ItemView}, List.Forall₂ vcRel l m →
      ((l.map (fun it => (it, v it))).map
        (fun p => (viewCore p.1, p.2))) =
      ((m.map (fun it => (it, v it))).map
        (fun p => (viewCore p.1, p.2))) := by
  intro l m h
  induction h with
  | nil => rfl
  | cons hab htl ih =>
    rename_i a b l2 m2
    simp only [List.map_cons]
    rw [ih, hv a b hab, show viewCore a = viewCore b from hab]

lemma compute_core_congr (L1 L2 : DB) (rid : Nat) (df dt : Option String)
    (hbb : get_all_account_balances L1 df dt = get_all_account_balances L2 df dt)
    (hall : List.Forall₂ vcRel (get_all_report_items L1)
      (get_all_report_items L2))
    (hdisp : List.Forall₂ vcRel (get_report_items L1 rid)
      (get_report_items L2 rid)) :
    (compute_report_column L1 rid df dt none none).map
      (fun p => (viewCore p.1, p.2)) =
    (compute_report_column L2 rid df dt none none).map
      (fun p => (viewCore p.1, p.2)) := by
  have h1 : step1_raw_bal (get_all_account_balances L1 df dt)
      (get_all_report_items L1) [] [] =
      step1_raw_bal (get_all_account_balances L2 df dt)
      (get_all_report_items L2) [] [] := by
    rw [hbb]
    exact step1_core_eq _ hall [] []
  have h2 : step2_acct_tt (get_all_report_items L1) [] =
      step2_acct_tt (get_all_report_items L2) [] := step2_core_eq hall []
  have h3 : buildNbMap (get_all_report_items L1) [] =
      buildNbMap (get_all_report_items L2) [] := buildNbMap_core_eq hall []
  simp only [compute_report_column]
  rw [h1, h2, h3]
  exact forall2_display_map _
    (fun a b hab => by
      simp only [vc_acct_name hab, vc_normal_balance hab]) hdisp

/-- C8, amended: the sixth total-to slot is not among the wired `tt_fields`,
so changing `total_to_6` on any stored item leaves every computed report
value unchanged — the outputs of `compute_report_column` agree except for
the modified field echoed inside the returned item row itself (erased here
by `viewCore`). -/
theorem c8_total_to_6_inert (L : DB) (i : Nat) (s : String) (report_id : Nat)
    (date_from date_to : Option String) :
    (compute_report_column { L with report_items := setTT6 L.report_items i s }
        report_id date_from date_to none none).map
      (fun p => (viewCore p.1, p.2)) =
    (compute_report_column L report_id date_from date_to none none).map
      (fun p => (viewCore p.1, p.2)) :=
  compute_core_congr _ L report_id date_from date_to rfl
    (get_all_report_items_setTT6 L i s)
    (get_report_items_setTT6 L i s report_id)

end GridTRX
